import Mathlib

/-!
The search path of the LDAP proxy backend (servers/slapd/back-ldap/search.c)

A shallow embedding of `ldap_back_search` and `ldap_send_entry`, compiled with
`ENABLE_REWRITE` defined (the rewrite engine is the collaborator the
specification talks about).  Calls into other translation units
(`rewrite_session`, `ldap_back_map`, `slap_str2ad`, `ldap_result`, ...) are
fields of the records `Collab` and `World`: what the callee answers is an
input of the model, what the search path does with the answer is the model.
Calls with an effect that the caller of the backend can observe are recorded,
in program order, as a list of `Event`s.
-/

namespace BackLdap

/-! ## Constants (ldap.h, slap.h) -/

/-- Result code LDAP_SUCCESS (0x00). -/
def LDAP_SUCCESS : Int := 0

/-- Result code LDAP_OPERATIONS_ERROR (0x01). -/
def LDAP_OPERATIONS_ERROR : Int := 1

/-- Result code LDAP_ADMINLIMIT_EXCEEDED (0x0b). -/
def LDAP_ADMINLIMIT_EXCEEDED : Int := 11

/-- Result code LDAP_UNWILLING_TO_PERFORM (0x35). -/
def LDAP_UNWILLING_TO_PERFORM : Int := 53

/-- Object identifier of the distinguishedName syntax, SLAPD_DN_SYNTAX in slap.h. -/
def SLAPD_DN_OID : String := "1.3.6.1.4.1.1466.115.121.1.12"

/-! ## Data model -/

/-- The rewrite contexts that search.c passes to rewrite_session. -/
inductive RewriteContext
  | searchBase
  | searchFilter
  | searchResult
  | matchedDn
  deriving DecidableEq, Repr

/-- What rewrite_session gives back: its return code, and for REWRITE_REGEXEC_OK
the output pointer (none is the NULL pointer: the rules left the string alone). -/
inductive RewriteResult
  | ok (result : Option String)
  | unwilling
  | err
  deriving DecidableEq, Repr

/-- The struct slap_limits_set fields read by ldap_back_search. -/
structure slap_limits_set where
  lms_t_soft : Int
  lms_t_hard : Int
  lms_s_soft : Int
  lms_s_hard : Int
  deriving DecidableEq, Repr

/-- An attribute description as far as ldap_send_entry looks into it: its name and
ad_type->sat_syntax->ssyn_oid. -/
structure AttributeDescription where
  ad_cname : String
  ssyn_oid : String
  deriving DecidableEq, Repr

/-- One Attribute of the translated entry: descriptor and value list (a_vals up to
its NULL terminator). -/
structure Attribute where
  a_desc : AttributeDescription
  a_vals : List String
  deriving DecidableEq, Repr

/-- The Entry handed to send_search_entry. -/
structure Entry where
  e_dn : String
  e_ndn : String
  e_attrs : List Attribute
  deriving DecidableEq, Repr

/-- One entry message as the client library presents it: ldap_get_dn (none is NULL),
and for each attribute of the ldap_first_attribute / ldap_next_attribute walk its
name and ldap_get_values_len (none is NULL). -/
structure WireEntry where
  dn : Option String
  attrs : List (String × Option (List String))
  deriving DecidableEq, Repr

/-- What one call of ldap_result hands to the loop of ldap_back_search. -/
inductive PollResult
  /-- Return value 0: nothing arrived within the time-out. -/
  | timeout
  /-- Return value LDAP_RES_SEARCH_ENTRY. -/
  | entry (e : WireEntry)
  /-- Any other message type; code is what ldap_result2error extracts, text and
  matched what LDAP_OPT_ERROR_STRING and LDAP_OPT_MATCHED_DN hold afterwards. -/
  | other (code : Int) (text : Option String) (matched : Option String)
  /-- Return value -1. -/
  | fail
  deriving DecidableEq, Repr

/-- The options ldap_back_search sets on the upstream handle. -/
inductive LdapOption
  | LDAP_OPT_DEREF
  | LDAP_OPT_TIMELIMIT
  | LDAP_OPT_SIZELIMIT
  deriving DecidableEq, Repr

/-- Calls of the search path that the surrounding server or the upstream server
observes, in program order. -/
inductive Event
  /-- Call ldap_set_option( lc->ld, opt, &v ). -/
  | ldap_set_option (opt : LdapOption) (v : Int)
  /-- Call ldap_search( lc->ld, base, scope, filter, attrs, attrsonly ). -/
  | ldap_search (base : String) (scope : Int) (filter : String)
      (attrs : Option (List String)) (attrsonly : Int)
  /-- Call send_search_entry( be, lc->conn, op, &ent, attrs, attrsonly, NULL ). -/
  | send_search_entry (e : Entry)
  /-- Call send_search_result( conn, op, err, matched, text, NULL, NULL, nentries ). -/
  | send_search_result (err : Int) (matched : Option String) (text : Option String)
      (nentries : Int)
  /-- Call send_ldap_result( conn, op, err, matched, text, NULL, NULL ). -/
  | send_ldap_result (err : Int) (matched : Option String) (text : Option String)
  /-- Call ldap_abandon( lc->ld, msgid ). -/
  | ldap_abandon (msgid : Int)
  /-- Call ldap_back_op_result( lc, op ): the upstream handle's error state is
  reported to the client. -/
  | ldap_back_op_result
  deriving DecidableEq, Repr

/-- The backend configuration and schema routines the search path consults. -/
structure Collab where
  /-- The rewrite engine: rewrite_session( li->rwinfo, context, input, conn, &out ). -/
  rewrite_session : RewriteContext → String → RewriteResult
  /-- Remote-to-local attribute name lookup: ldap_back_map( &li->at_map, name, 1 ). -/
  at_map : String → Option String
  /-- Remote-to-local object class lookup: ldap_back_map( &li->oc_map, name, 1 ). -/
  oc_map : String → Option String
  /-- Descriptor lookup slap_str2ad: none when it does not return LDAP_SUCCESS. -/
  slap_str2ad : String → Option AttributeDescription
  /-- Fallback slap_str2undef_ad: none when it does not return LDAP_SUCCESS. -/
  slap_str2undef_ad : String → Option AttributeDescription
  /-- The in-place dn_normalize. -/
  dn_normalize : String → String
  /-- Filter mapping ldap_back_map_filter( &li->at_map, &li->oc_map, f, 0 ). -/
  ldap_back_map_filter : String → Option String
  /-- Attribute list mapping ldap_back_map_attrs( &li->at_map, attrs, 0 ). -/
  ldap_back_map_attrs : Option (List String) → Option (List String)
  /-- Result code mapping ldap_back_map_result. -/
  ldap_back_map_result : Int → Int

/-- The arguments of ldap_back_search that the function reads. -/
structure Request where
  base : String
  scope : Int
  deref : Int
  slimit : Int
  tlimit : Int
  filterstr : String
  attrs : Option (List String)
  attrsonly : Int
  deriving DecidableEq, Repr

/-- What the session, the limit table and the upstream server answer during one
call of ldap_back_search. -/
structure World where
  /-- Whether ldap_back_getconn returns a connection. -/
  getconn : Bool
  /-- Whether be_isroot( be, &op->o_ndn ) holds. -/
  isroot : Bool
  /-- Limit set stored by get_limits (only read when the caller is not root). -/
  limit : slap_limits_set
  /-- Whether ldap_back_dobind succeeds. -/
  dobind : Bool
  /-- Return value of ldap_search: the message id, or -1. -/
  msgid : Int
  /-- Successive return values of ldap_result. -/
  stream : List PollResult
  /-- Value of op->o_abandon read under the mutex at the top of loop iteration i
  (iteration 0 precedes the first ldap_result; iteration i follows the i-th). -/
  abandon : Nat → Bool
  /-- Return value of ldap_back_op_result. -/
  op_result_rc : Int

/-! ## ldap_send_entry -/

/-- Comparison strcasecmp( a, b ) == 0. -/
def strcasecmp_eq (a b : String) : Bool :=
  a.data.map Char.toLower == b.data.map Char.toLower

/-- The loop of search.c lines 459-475 over the NULL-terminated array a_vals, from the
state (a_vals, i, last) at the loop test.  The array is a list of cells, none being
NULL.  Each unit of fuel pays for one evaluation of the loop test; none is returned
when the fuel runs out or a cell outside the array is touched.  The statements
`i--` of the body and `i++` of the loop header cancel, so i stays a natural number.
After `bv->bv_val = ch_strdup( mapped )` the value holds the text of mapped, as it
does when mapped already is bv->bv_val. -/
def oc_loop (oc_map : String → Option String) :
    Nat → List (Option String) → Nat → Int → Option (List (Option String))
  | 0, _, _, _ => none
  | fuel + 1, a, i, last =>
    match a[i]? with
    | none => none
    | some none => some a
    | some (some bv) =>
      match oc_map bv with
      | none =>
        let a1 := a.set i none
        let last1 := last - 1
        if last1 < 0 then some a1
        else
          match a1[last1.toNat]? with
          | none => none
          | some moved =>
            let a2 := a1.set i moved
            let a3 := a2.set last1.toNat none
            oc_loop oc_map fuel a3 i last1
      | some mapped => oc_loop oc_map fuel (a.set i (some mapped)) (i + 1) last

/-- The values of a NULL-terminated array: the cells before the first NULL. -/
def bvec_values : List (Option String) → List String
  | some v :: rest => v :: bvec_values rest
  | _ => []

/-- The object class branch of ldap_send_entry (lines 458-475) on the values that
ldap_get_values_len returned: `last` is first set to the number of values, then the
loop runs from i = 0.  The fuel is one loop test per value and one for the exit. -/
def oc_filter (oc_map : String → Option String) (vals : List String) :
    Option (List String) :=
  (oc_loop oc_map (vals.length + 1) (vals.map some ++ [none]) 0 vals.length).map
    bvec_values

/-- The body of the switch at lines 495-534 for one value of a DN-valued attribute. -/
def rewrite_value (c : Collab) (v : String) : String :=
  match c.rewrite_session RewriteContext.searchResult v with
  | RewriteResult.ok none => v
  | RewriteResult.ok (some newval) => newval
  | RewriteResult.unwilling => v
  | RewriteResult.err => v

/-- Descriptor resolution of lines 437-453: slap_str2ad, else slap_str2undef_ad. -/
def resolve_desc (c : Collab) (mapped : String) : Option AttributeDescription :=
  match c.slap_str2ad mapped with
  | some d => some d
  | none => c.slap_str2undef_ad mapped

/-- Outcome of one pass through the attribute loop body of ldap_send_entry. -/
inductive AttrStep
  /-- A `continue`: nothing is linked into the entry. -/
  | skip
  /-- The attribute is linked at *attrp. -/
  | link (a : Attribute)
  /-- The object class loop did not finish within its fuel. -/
  | stuck
  deriving DecidableEq, Repr

/-- One pass through the body of the attribute loop (lines 429-540) for the wire
attribute named a.1 with values a.2.  The allocator ch_malloc never returns NULL
(it ends the process instead), so the test at line 433 never fires. -/
def send_entry_attr (c : Collab) (a : String × Option (List String)) : AttrStep :=
  match c.at_map a.1 with
  | none => AttrStep.skip
  | some mapped =>
    match resolve_desc c mapped with
    | none => AttrStep.skip
    | some desc =>
      match a.2 with
      | none => AttrStep.link ⟨desc, []⟩
      | some vals =>
        if strcasecmp_eq mapped "objectclass" then
          match oc_filter c.oc_map vals with
          | none => AttrStep.stuck
          | some kept => AttrStep.link ⟨desc, kept⟩
        else if desc.ssyn_oid = SLAPD_DN_OID then
          AttrStep.link ⟨desc, vals.map (rewrite_value c)⟩
        else AttrStep.link ⟨desc, vals⟩

/-- The attribute loop of ldap_send_entry (lines 425-541): the list built through
attrp, in the order of the walk; none when an object class loop got stuck. -/
def send_entry_attrs (c : Collab) :
    List (String × Option (List String)) → Option (List Attribute)
  | [] => some []
  | a :: rest =>
    match send_entry_attr c a with
    | AttrStep.skip => send_entry_attrs c rest
    | AttrStep.stuck => none
    | AttrStep.link x => (send_entry_attrs c rest).map (fun l => x :: l)

/-- Outcome of ldap_send_entry. -/
inductive SendEntry
  /-- The function returned before send_search_entry (lines 384 and 412). -/
  | dropped
  /-- The entry passed to send_search_entry. -/
  | sent (e : Entry)
  /-- An object class loop did not finish within its fuel. -/
  | stuck
  deriving DecidableEq, Repr

/-- The function ldap_send_entry (lines 360-557). -/
def ldap_send_entry (c : Collab) (e : WireEntry) : SendEntry :=
  match e.dn with
  | none => SendEntry.dropped
  | some dn =>
    match c.rewrite_session RewriteContext.searchResult dn with
    | RewriteResult.err => SendEntry.dropped
    | RewriteResult.unwilling => SendEntry.dropped
    | RewriteResult.ok r =>
      let e_dn := match r with
        | none => dn
        | some s => s
      match send_entry_attrs c e.attrs with
      | none => SendEntry.stuck
      | some attrs => SendEntry.sent ⟨e_dn, c.dn_normalize e_dn, attrs⟩

/-! ## ldap_back_search -/

/-- Outcome of one of the two limit tests. -/
inductive LimitCheck
  /-- The request goes on with this value of the limit variable. -/
  | proceed (limit : Int)
  /-- The branch that sends a result and jumps to finish. -/
  | reject
  deriving DecidableEq, Repr

/-- The limit test, written twice in ldap_back_search: lines 96-110 with tlimit and
lms_t_soft / lms_t_hard, lines 114-128 with slimit and lms_s_soft / lms_s_hard. -/
def limit_check (isroot : Bool) (requested soft hard : Int) : LimitCheck :=
  if !isroot && decide (requested > hard) then
    if hard = 0 then LimitCheck.proceed soft
    else if hard > 0 then LimitCheck.reject
    else LimitCheck.proceed requested
  else LimitCheck.proceed requested

/-- The three conditional ldap_set_option calls of lines 130-135. -/
def set_options (deref tlimit slimit : Int) : List Event :=
  (if deref ≠ -1 then [Event.ldap_set_option LdapOption.LDAP_OPT_DEREF deref] else [])
  ++ (if tlimit ≠ -1 then [Event.ldap_set_option LdapOption.LDAP_OPT_TIMELIMIT tlimit] else [])
  ++ (if slimit ≠ -1 then [Event.ldap_set_option LdapOption.LDAP_OPT_SIZELIMIT slimit] else [])

/-- How the result loop (lines 241-274) is left. -/
inductive PumpExit
  /-- The `break` of line 272, with sres, err, match and count as they stand. -/
  | done (sres : Int) (text : Option String) (matched : Option String) (count : Int)
  /-- The `goto finish` of line 255, after ldap_abandon. -/
  | abandoned
  /-- The loop test failed: rc is -1 (line 276 then jumps to fail). -/
  | failed
  /-- The recorded stream is used up while the loop is still polling. -/
  | polling
  /-- An object class loop inside ldap_send_entry did not finish within its fuel. -/
  | stuck
  deriving DecidableEq, Repr

/-- What one pass through the loop body does with the value rc. -/
inductive PumpStep
  /-- The body ran to its end; the loop header calls ldap_result next. -/
  | next (events : List Event) (count : Int)
  /-- The loop is left. -/
  | leave (events : List Event) (how : PumpExit)
  deriving DecidableEq, Repr

/-- The statement `count++` of line 264 on the 32-bit `int count` of line 73: one
more, and from INT_MAX = 2^31 - 1 on to INT_MIN = -2^31 (two's complement). -/
def int_incr (count : Int) : Int :=
  (count + 1 + 2147483648) % 4294967296 - 2147483648

/-- One evaluation of the loop test `rc != -1` and of the loop body (lines 242-273)
in iteration number iter, with rc the value the header last assigned and count the
value of the `int count`. -/
def pump_body (c : Collab) (abandon : Nat → Bool) (msgid : Int)
    (rc : PollResult) (iter : Nat) (count : Int) : PumpStep :=
  match rc with
  | PollResult.fail => PumpStep.leave [] PumpExit.failed
  | PollResult.timeout =>
    if abandon iter then PumpStep.leave [Event.ldap_abandon msgid] PumpExit.abandoned
    else PumpStep.next [] count
  | PollResult.entry e =>
    if abandon iter then PumpStep.leave [Event.ldap_abandon msgid] PumpExit.abandoned
    else
      match ldap_send_entry c e with
      | SendEntry.dropped => PumpStep.next [] (int_incr count)
      | SendEntry.sent ent => PumpStep.next [Event.send_search_entry ent] (int_incr count)
      | SendEntry.stuck => PumpStep.leave [] PumpExit.stuck
  | PollResult.other code text matched =>
    if abandon iter then PumpStep.leave [Event.ldap_abandon msgid] PumpExit.abandoned
    else PumpStep.leave [] (PumpExit.done (c.ldap_back_map_result code) text matched count)

/-- The result loop of lines 241-274: rc is the value under test (0 on entry, then
what ldap_result returned), stream holds the return values of the calls of
ldap_result still to come. -/
def pump (c : Collab) (abandon : Nat → Bool) (msgid : Int) :
    List PollResult → PollResult → Nat → Int → List Event × PumpExit
  | stream, rc, iter, count =>
    match pump_body c abandon msgid rc iter count with
    | PumpStep.leave evs how => (evs, how)
    | PumpStep.next evs count1 =>
      match stream with
      | [] => (evs, PumpExit.polling)
      | r :: rest =>
        let p := pump c abandon msgid rest r (iter + 1) count1
        (evs ++ p.1, p.2)

/-- The effective filter string after the searchFilter rewrite (lines 180-185). -/
def effective_filter (filterstr : String) (mfilter : Option String) : String :=
  match mfilter with
  | none => filterstr
  | some s => if s = "" then filterstr else s

/-- The filter passed upstream (lines 208-221): the result of ldap_back_map_filter
unless that is NULL, then the rewritten filter itself. -/
def map_filter (c : Collab) (mfilter : String) : String :=
  match c.ldap_back_map_filter mfilter with
  | none => mfilter
  | some s => s

/-- The attribute list passed upstream (lines 223-226): the result of
ldap_back_map_attrs unless that is NULL, then the caller's list. -/
def map_attrs (c : Collab) (attrs : Option (List String)) : Option (List String) :=
  match c.ldap_back_map_attrs attrs with
  | none => attrs
  | some l => some l

/-- The part of ldap_back_search after the loop was left through `break`
(lines 276-319): the matchedDn rewrite and the final result. -/
def after_loop (c : Collab) (sres : Int) (text matched : Option String) (count : Int) :
    List Event × Option Int :=
  match matched with
  | none => ([Event.send_search_result sres none text count], some 0)
  | some m =>
    match c.rewrite_session RewriteContext.matchedDn m with
    | RewriteResult.ok none => ([Event.send_search_result sres (some m) text count], some 0)
    | RewriteResult.ok (some mmatch) =>
      ([Event.send_search_result sres (some mmatch) text count], some 0)
    | RewriteResult.unwilling =>
      ([Event.send_ldap_result LDAP_UNWILLING_TO_PERFORM none (some "Unwilling to perform")],
        some (-1))
    | RewriteResult.err => ([], some (-1))

/-- The part of ldap_back_search from the call of ldap_search on (lines 228-321). -/
def search_and_pump (c : Collab) (w : World) : List Event × Option Int :=
  if w.msgid = -1 then ([Event.ldap_back_op_result], some w.op_result_rc)
  else
    match pump c w.abandon w.msgid w.stream PollResult.timeout 0 0 with
    | (evs, PumpExit.abandoned) => (evs, some 0)
    | (evs, PumpExit.failed) => (evs ++ [Event.ldap_back_op_result], some w.op_result_rc)
    | (evs, PumpExit.polling) => (evs, none)
    | (evs, PumpExit.stuck) => (evs, none)
    | (evs, PumpExit.done sres text matched count) =>
      let fin := after_loop c sres text matched count
      (evs ++ fin.1, fin.2)

/-- The function ldap_back_search (lines 52-358): the observable calls it makes, in
order, and its return value (none when the recorded stream ends while the loop is
still polling).  The label finish only releases memory. -/
def ldap_back_search (c : Collab) (w : World) (r : Request) : List Event × Option Int :=
  if w.getconn = false then ([], some (-1))
  else
    match limit_check w.isroot r.tlimit w.limit.lms_t_soft w.limit.lms_t_hard with
    | LimitCheck.reject =>
      ([Event.send_search_result LDAP_UNWILLING_TO_PERFORM none none 0], some 0)
    | LimitCheck.proceed tlimit =>
      match limit_check w.isroot r.slimit w.limit.lms_s_soft w.limit.lms_s_hard with
      | LimitCheck.reject =>
        ([Event.send_search_result LDAP_UNWILLING_TO_PERFORM none none 0], some 0)
      | LimitCheck.proceed slimit =>
        let opts := set_options r.deref tlimit slimit
        if w.dobind = false then (opts, some (-1))
        else
          match c.rewrite_session RewriteContext.searchBase r.base with
          | RewriteResult.unwilling =>
            (opts ++ [Event.send_ldap_result LDAP_UNWILLING_TO_PERFORM none
              (some "Unwilling to perform")], some (-1))
          | RewriteResult.err =>
            (opts ++ [Event.send_ldap_result LDAP_OPERATIONS_ERROR none
              (some "Operations error")], some (-1))
          | RewriteResult.ok mb =>
            let mbase := mb.getD r.base
            match c.rewrite_session RewriteContext.searchFilter r.filterstr with
            | RewriteResult.unwilling =>
              (opts ++ [Event.send_ldap_result LDAP_UNWILLING_TO_PERFORM none
                (some "Unwilling to perform")], some (-1))
            | RewriteResult.err => (opts, some (-1))
            | RewriteResult.ok mf =>
              let mfilter := effective_filter r.filterstr mf
              let mapped_filter := map_filter c mfilter
              let mapped_attrs := map_attrs c r.attrs
              let rest := search_and_pump c w
              (opts ++ Event.ldap_search mbase r.scope mapped_filter mapped_attrs r.attrsonly
                :: rest.1, rest.2)

/-! ## Reading a run -/

/-- The entries passed to send_search_entry, in order. -/
def emitted : List Event → List Entry
  | [] => []
  | Event.send_search_entry e :: rest => e :: emitted rest
  | _ :: rest => emitted rest

/-- Whether an event hands a result to the client: send_search_result,
send_ldap_result, or the report made by ldap_back_op_result. -/
def is_delivery : Event → Bool
  | Event.send_search_result _ _ _ _ => true
  | Event.send_ldap_result _ _ _ => true
  | Event.ldap_back_op_result => true
  | _ => false

/-- Whether an event is a call of ldap_search on the upstream handle. -/
def is_remote_search : Event → Bool
  | Event.ldap_search _ _ _ _ _ => true
  | _ => false

/-- Whether an event is a call of ldap_abandon. -/
def is_abandon : Event → Bool
  | Event.ldap_abandon _ => true
  | _ => false

/-- The values passed to ldap_set_option for one option, in order. -/
def option_values (opt : LdapOption) : List Event → List Int
  | [] => []
  | Event.ldap_set_option o v :: rest =>
    if o = opt then v :: option_values opt rest else option_values opt rest
  | _ :: rest => option_values opt rest

/-! ## Sample collaborators for concrete runs -/

/-- A backend whose rewrite rules leave every string alone, whose maps pass every
name through, and whose schema knows every attribute as a directory string. -/
def plain : Collab where
  rewrite_session := fun _ _ => RewriteResult.ok none
  at_map := fun s => some s
  oc_map := fun s => some s
  slap_str2ad := fun s => some ⟨s, "1.3.6.1.4.1.1466.115.121.1.15"⟩
  slap_str2undef_ad := fun _ => none
  dn_normalize := fun s => s
  ldap_back_map_filter := fun _ => none
  ldap_back_map_attrs := fun _ => none
  ldap_back_map_result := fun e => e

/-- A wire entry with the given DN and a single cn value. -/
def person (dn cn : String) : WireEntry := ⟨some dn, [("cn", some [cn])]⟩

/-- A subtree search below dc=example with the given size and time limits. -/
def request (slimit tlimit : Int) : Request :=
  ⟨"dc=example", 2, 0, slimit, tlimit, "(objectClass=*)", none, 0⟩

/-- An answering upstream for a caller that is root or not, with the given size
limits (no time limit configured), stream and abandon observations. -/
def world (isroot : Bool) (s_soft s_hard : Int) (stream : List PollResult)
    (abandon : Nat → Bool) : World :=
  ⟨true, isroot, ⟨-1, -1, s_soft, s_hard⟩, true, 7, stream, abandon, -1⟩

/-! ## Derived notions used in the statements -/

/-- The attribute linked by one pass through the attribute loop body, if any. -/
def linked (c : Collab) (a : String × Option (List String)) : Option Attribute :=
  match send_entry_attr c a with
  | AttrStep.link x => some x
  | _ => none

/-- The object class map of a backend that maps two classes and drops the rest. -/
def two_classes (s : String) : Option String :=
  if s = "inetOrgPerson" then some "person"
  else if s = "top" then some "top"
  else none

/-- A backend with the object class map two_classes, an attribute map that renames
member to uniqueMember and drops userPassword, and a schema in which uniqueMember
has the distinguishedName syntax; DNs under dc=remote are rewritten on the way
back, and the rewrite engine fails on the string "bad". -/
def mapped_backend : Collab where
  rewrite_session := fun ctx s =>
    match ctx with
    | RewriteContext.searchResult =>
      if s = "cn=a,dc=remote" then RewriteResult.ok (some "cn=a,dc=local")
      else if s = "bad" then RewriteResult.err
      else if s = "worse" then RewriteResult.unwilling
      else RewriteResult.ok none
    | _ => RewriteResult.ok none
  at_map := fun s =>
    if s = "member" then some "uniqueMember"
    else if s = "userPassword" then none
    else some s
  oc_map := two_classes
  slap_str2ad := fun s =>
    if s = "uniqueMember" then some ⟨s, SLAPD_DN_OID⟩
    else if s = "x-unknown" then none
    else some ⟨s, "1.3.6.1.4.1.1466.115.121.1.15"⟩
  slap_str2undef_ad := fun _ => none
  dn_normalize := fun s => s
  ldap_back_map_filter := fun _ => none
  ldap_back_map_attrs := fun _ => none
  ldap_back_map_result := fun e => e

/-- Whether rewrite_session returned REWRITE_REGEXEC_OK. -/
def RewriteResult.is_ok : RewriteResult → Bool
  | RewriteResult.ok _ => true
  | _ => false

/-- A wire entry is translatable when ldap_get_dn yields its DN and the searchResult
rewrite of that DN returns REWRITE_REGEXEC_OK. -/
def translatable (c : Collab) (e : WireEntry) : Bool :=
  match e.dn with
  | none => false
  | some dn => (c.rewrite_session RewriteContext.searchResult dn).is_ok

/-- The messages among the return values of ldap_result: a return value of 0 means
that the wait timed out and carries none. -/
def messages : List PollResult → List PollResult
  | [] => []
  | PollResult.timeout :: rest => messages rest
  | m :: rest => m :: messages rest

/-- Return values after which the loop body runs to its end and ldap_result is
called again: a time-out or an entry message. -/
def is_pending : PollResult → Bool
  | PollResult.timeout => true
  | PollResult.entry _ => true
  | _ => false

/-- The entry messages among some return values of ldap_result, in order. -/
def wire_entries : List PollResult → List WireEntry
  | [] => []
  | PollResult.entry e :: rest => e :: wire_entries rest
  | _ :: rest => wire_entries rest

/-- The calls of send_search_entry that handling some return values of ldap_result
gives rise to: one for each entry message that ldap_send_entry does not drop. -/
def pump_emits (c : Collab) : List PollResult → List Event
  | [] => []
  | PollResult.entry e :: rest =>
    match ldap_send_entry c e with
    | SendEntry.sent ent => Event.send_search_entry ent :: pump_emits c rest
    | _ => pump_emits c rest
  | _ :: rest => pump_emits c rest

/-- The value of the `int count` after k more executions of `count++`. -/
def count_after (count : Int) : Nat → Int
  | 0 => count
  | k + 1 => int_incr (count_after count k)

/-- Whether an event is a call made before the result loop: ldap_set_option or
ldap_search. -/
def is_request_side : Event → Bool
  | Event.ldap_set_option _ _ => true
  | Event.ldap_search _ _ _ _ _ => true
  | _ => false

/-- The request gets as far as the result loop: a connection is found, neither
limit test rejects, the bind succeeds, the rewrites of base and filter return
REWRITE_REGEXEC_OK, and ldap_search returns a message id. -/
def reaches_loop (c : Collab) (w : World) (r : Request) : Prop :=
  w.getconn = true
  ∧ limit_check w.isroot r.tlimit w.limit.lms_t_soft w.limit.lms_t_hard ≠ LimitCheck.reject
  ∧ limit_check w.isroot r.slimit w.limit.lms_s_soft w.limit.lms_s_hard ≠ LimitCheck.reject
  ∧ w.dobind = true
  ∧ (c.rewrite_session RewriteContext.searchBase r.base).is_ok = true
  ∧ (c.rewrite_session RewriteContext.searchFilter r.filterstr).is_ok = true
  ∧ w.msgid ≠ -1

instance (c : Collab) (w : World) (r : Request) : Decidable (reaches_loop c w r) := by
  unfold reaches_loop
  infer_instance

/-- The backend plain with another rewrite engine. -/
def with_rewrite (f : RewriteContext → String → RewriteResult) : Collab :=
  { plain with rewrite_session := f }

/-- A rewrite engine that answers with the given result in one context and leaves
every string alone in the others. -/
def failing_in (ctx : RewriteContext) (res : RewriteResult) :
    RewriteContext → String → RewriteResult :=
  fun k _ => if k = ctx then res else RewriteResult.ok none

/-- An abandon flag that is clear at the loop tests before the k-th return of
ldap_result and set from the test that follows the k-th return on. -/
def set_after_poll (k : Nat) : Nat → Bool :=
  fun i => decide (k ≤ i)

/-! ## Array facts used by the object class loop -/

theorem getElem?_mid {α : Type} (xs : List α) (y : α) (ys : List α) :
    (xs ++ y :: ys)[xs.length]? = some y := by
  rw [List.getElem?_append_right (Nat.le_refl _)]
  simp

theorem set_mid {α : Type} (xs : List α) (y v : α) (ys : List α) :
    (xs ++ y :: ys).set xs.length v = xs ++ v :: ys := by
  simp

theorem bvec_values_map_some (xs : List String) (pad : List (Option String)) :
    bvec_values (xs.map some ++ none :: pad) = xs := by
  induction xs with
  | nil => rfl
  | cons x xs ih => simp [bvec_values, ih]

/-! ## One step of the object class loop -/

theorem oc_loop_exit (oc_map : String → Option String) (fuel : Nat)
    (a : List (Option String)) (i : Nat) (last : Int) (h : a[i]? = some none) :
    oc_loop oc_map (fuel + 1) a i last = some a := by
  simp [oc_loop, h]

theorem oc_loop_keep (oc_map : String → Option String) (fuel : Nat)
    (a : List (Option String)) (i : Nat) (last : Int) (bv mapped : String)
    (h : a[i]? = some (some bv)) (hm : oc_map bv = some mapped) :
    oc_loop oc_map (fuel + 1) a i last
      = oc_loop oc_map fuel (a.set i (some mapped)) (i + 1) last := by
  simp [oc_loop, h, hm]

theorem oc_loop_drop (oc_map : String → Option String) (fuel : Nat)
    (a : List (Option String)) (i : Nat) (last : Int) (bv : String)
    (moved : Option String)
    (h : a[i]? = some (some bv)) (hm : oc_map bv = none) (hlast : 0 ≤ last - 1)
    (hmoved : (a.set i none)[(last - 1).toNat]? = some moved) :
    oc_loop oc_map (fuel + 1) a i last
      = oc_loop oc_map fuel (((a.set i none).set i moved).set (last - 1).toNat none) i
          (last - 1) := by
  have hn : ¬ (last - 1 < 0) := by omega
  rw [oc_loop]
  simp only [h, hm, if_neg hn, hmoved]

/-! ## The object class loop as a whole -/

/-- Loop invariant of the object class loop: with the values kept so far (pre) in
cells 0..i-1, the values not yet looked at (rest) in cells i..last-1 and NULL in
cell last, the loop ends within rest.length + 1 tests, and the values it leaves
are pre and the images of the mapped values of rest, in some order. -/
theorem oc_loop_spec (oc_map : String → Option String) :
    ∀ (n : Nat) (rest pre : List String) (pad : List (Option String)) (fuel : Nat),
      rest.length = n → n < fuel →
      ∃ out, oc_loop oc_map fuel ((pre ++ rest).map some ++ none :: pad) pre.length
          ((pre.length : Int) + (rest.length : Int)) = some out
        ∧ (bvec_values out).Perm (pre ++ rest.filterMap oc_map) := by
  intro n
  induction n with
  | zero =>
    intro rest pre pad fuel hlen hfuel
    have hr : rest = [] := List.length_eq_zero.mp hlen
    subst hr
    obtain ⟨f, rfl⟩ : ∃ f, fuel = f + 1 := ⟨fuel - 1, by omega⟩
    refine ⟨pre.map some ++ none :: pad, ?_, ?_⟩
    · have h := getElem?_mid (pre.map some) none pad
      simp only [List.length_map] at h
      simpa using oc_loop_exit oc_map f _ _ _ h
    · simp [bvec_values_map_some]
  | succ n ih =>
    intro rest pre pad fuel hlen hfuel
    obtain ⟨f, rfl⟩ : ∃ f, fuel = f + 1 := ⟨fuel - 1, by omega⟩
    cases rest with
    | nil => simp at hlen
    | cons r rs =>
      have hrs : rs.length = n := by simpa using hlen
      have hshape : (pre ++ r :: rs).map some ++ none :: pad
          = pre.map some ++ some r :: (rs.map some ++ none :: pad) := by simp
      have hread : ((pre ++ r :: rs).map some ++ none :: pad)[pre.length]?
          = some (some r) := by
        rw [hshape]
        have h := getElem?_mid (pre.map some) (some r) (rs.map some ++ none :: pad)
        simpa only [List.length_map] using h
      cases hm : oc_map r with
      | some mapped =>
        rw [oc_loop_keep oc_map f _ _ _ r mapped hread hm]
        have hset : ((pre ++ r :: rs).map some ++ none :: pad).set pre.length (some mapped)
            = ((pre ++ [mapped]) ++ rs).map some ++ none :: pad := by
          rw [hshape]
          have h := set_mid (pre.map some) (some r) (some mapped)
            (rs.map some ++ none :: pad)
          simp only [List.length_map] at h
          rw [h]
          simp
        obtain ⟨out, hout, hperm⟩ := ih rs (pre ++ [mapped]) pad f hrs (by omega)
        refine ⟨out, ?_, ?_⟩
        · rw [hset]
          have hi : (pre ++ [mapped]).length = pre.length + 1 := by simp
          rw [hi] at hout
          have hl : ((pre.length : Int) + ((r :: rs).length : Int))
              = (((pre.length + 1 : Nat) : Int) + (rs.length : Int)) := by
            simp only [List.length_cons]; push_cast; ring
          rw [hl]
          exact hout
        · simpa [List.filterMap_cons, hm] using hperm
      | none =>
        have hset1 : ((pre ++ r :: rs).map some ++ none :: pad).set pre.length none
            = pre.map some ++ none :: (rs.map some ++ none :: pad) := by
          rw [hshape]
          have h := set_mid (pre.map some) (some r) none (rs.map some ++ none :: pad)
          simpa only [List.length_map] using h
        have hlast : ((pre.length : Int) + ((r :: rs).length : Int)) - 1
            = ((pre.length : Int) + (rs.length : Int)) := by
          simp only [List.length_cons]; push_cast; ring
        have hnat : (((pre.length : Int) + ((r :: rs).length : Int)) - 1).toNat
            = pre.length + rs.length := by
          rw [hlast]; omega
        have hsplit : rs = [] ∨ ∃ L z, rs = L ++ [z] := by
          rcases List.eq_nil_or_concat rs with h | ⟨L, z, h⟩
          · exact Or.inl h
          · exact Or.inr ⟨L, z, by simpa using h⟩
        rcases hsplit with hnil | ⟨L, z, hL⟩
        · subst hnil
          have hmoved : (((pre ++ [r]).map some ++ none :: pad).set pre.length none)[
              (((pre.length : Int) + (([r] : List String).length : Int)) - 1).toNat]?
              = some none := by
            rw [hset1, hnat]
            have h := getElem?_mid (pre.map some) none
              (([] : List String).map some ++ none :: pad)
            simpa only [List.length_map, List.length_nil, Nat.add_zero] using h
          rw [oc_loop_drop oc_map f _ _ _ r none hread hm (by rw [hlast]; omega) hmoved]
          rw [hset1, hnat, hlast]
          have hfix : ((pre.map some ++ none :: (([] : List String).map some ++ none :: pad)).set
              pre.length none).set (pre.length + ([] : List String).length) none
              = (pre ++ []).map some ++ none :: (none :: pad) := by
            have h := set_mid (pre.map some) none none
              (([] : List String).map some ++ none :: pad)
            simp only [List.length_map] at h
            simp only [List.length_nil, Nat.add_zero, h]
            simp
          rw [hfix]
          obtain ⟨out, hout, hperm⟩ := ih [] pre (none :: pad) f hrs (by omega)
          exact ⟨out, hout, by simpa [List.filterMap_cons, hm] using hperm⟩
        · subst hL
          have hLlen : L.length + 1 = n := by simpa using hrs
          have hshape1 : pre.map some ++ none :: ((L ++ [z]).map some ++ none :: pad)
              = (pre.map some ++ none :: L.map some) ++ some z :: (none :: pad) := by simp
          have hidx : pre.length + (L ++ [z]).length
              = (pre.map some ++ none :: L.map some).length := by
            simp
          have hmoved : (((pre ++ r :: (L ++ [z])).map some ++ none :: pad).set pre.length
              none)[(((pre.length : Int) + ((r :: (L ++ [z])).length : Int)) - 1).toNat]?
              = some (some z) := by
            rw [hset1, hnat, hshape1, hidx]
            exact getElem?_mid _ _ _
          rw [oc_loop_drop oc_map f _ _ _ r (some z) hread hm (by rw [hlast]; omega) hmoved]
          rw [hset1, hnat, hlast]
          have hfix : ((pre.map some ++ none :: ((L ++ [z]).map some ++ none :: pad)).set
              pre.length (some z)).set (pre.length + (L ++ [z]).length) none
              = (pre ++ z :: L).map some ++ none :: (none :: pad) := by
            have h := set_mid (pre.map some) none (some z)
              ((L ++ [z]).map some ++ none :: pad)
            simp only [List.length_map] at h
            rw [h]
            have hshape2 : pre.map some ++ some z :: ((L ++ [z]).map some ++ none :: pad)
                = (pre.map some ++ some z :: L.map some) ++ some z :: (none :: pad) := by
              simp
            have hidx2 : pre.length + (L ++ [z]).length
                = (pre.map some ++ some z :: L.map some).length := by
              simp
            rw [hshape2, hidx2, set_mid]
            simp
          rw [hfix]
          obtain ⟨out, hout, hperm⟩ := ih (z :: L) pre (none :: pad) f
            (by simpa using hLlen) (by omega)
          refine ⟨out, ?_, ?_⟩
          · have hl : ((pre.length : Int) + ((L ++ [z]).length : Int))
                = ((pre.length : Int) + ((z :: L).length : Int)) := by simp
            rw [hl]
            exact hout
          · refine hperm.trans (List.Perm.append_left pre ?_)
            have hp : (z :: L).Perm (L ++ [z]) := (List.perm_append_singleton z L).symm
            simpa [List.filterMap_cons, hm] using hp.filterMap oc_map

/-- The object class branch always ends, and leaves a rearrangement of the images of
the mapped values. -/
theorem oc_filter_spec (oc_map : String → Option String) (vals : List String) :
    ∃ out, oc_filter oc_map vals = some out ∧ out.Perm (vals.filterMap oc_map) := by
  obtain ⟨a, ha, hperm⟩ := oc_loop_spec oc_map vals.length vals [] [] (vals.length + 1)
    rfl (Nat.lt_succ_self _)
  refine ⟨bvec_values a, ?_, by simpa using hperm⟩
  have ha1 : oc_loop oc_map (vals.length + 1) (vals.map some ++ [none]) 0 vals.length
      = some a := by
    simpa using ha
  simp [oc_filter, ha1]

/-! ## ldap_send_entry never gets stuck -/

theorem filterMap_length_add (f : String → Option String) (vals : List String) :
    (vals.filterMap f).length + (vals.filter (fun v => (f v).isNone)).length
      = vals.length := by
  induction vals with
  | nil => rfl
  | cons v vs ih =>
    cases h : f v with
    | none => simp [List.filterMap_cons, h]; omega
    | some m => simp [List.filterMap_cons, h]; omega

theorem send_entry_attr_not_stuck (c : Collab) (a : String × Option (List String)) :
    send_entry_attr c a ≠ AttrStep.stuck := by
  cases h1 : c.at_map a.1 with
  | none => simp [send_entry_attr, h1]
  | some mapped =>
    cases h2 : resolve_desc c mapped with
    | none => simp [send_entry_attr, h1, h2]
    | some desc =>
      cases h3 : a.2 with
      | none => simp [send_entry_attr, h1, h2, h3]
      | some vals =>
        obtain ⟨out, hout, _⟩ := oc_filter_spec c.oc_map vals
        simp only [send_entry_attr, h1, h2, h3, hout]
        split_ifs <;> simp

theorem send_entry_attrs_eq (c : Collab) (l : List (String × Option (List String))) :
    send_entry_attrs c l = some (l.filterMap (linked c)) := by
  induction l with
  | nil => rfl
  | cons a rest ih =>
    have hns := send_entry_attr_not_stuck c a
    cases h : send_entry_attr c a with
    | skip => simp [send_entry_attrs, h, ih, linked, List.filterMap_cons]
    | stuck => exact absurd h hns
    | link x => simp [send_entry_attrs, h, ih, linked, List.filterMap_cons]

theorem linked_desc (c : Collab) (a : String × Option (List String)) :
    (linked c a).map (fun x => x.a_desc) = (c.at_map a.1).bind (resolve_desc c) := by
  cases h1 : c.at_map a.1 with
  | none => simp [linked, send_entry_attr, h1]
  | some mapped =>
    cases h2 : resolve_desc c mapped with
    | none => simp [linked, send_entry_attr, h1, h2]
    | some desc =>
      cases h3 : a.2 with
      | none => simp [linked, send_entry_attr, h1, h2, h3]
      | some vals =>
        obtain ⟨out, hout, _⟩ := oc_filter_spec c.oc_map vals
        simp only [linked, send_entry_attr, h1, h2, h3, hout]
        split_ifs <;> simp [h2]

theorem ldap_send_entry_not_stuck (c : Collab) (e : WireEntry) :
    ldap_send_entry c e ≠ SendEntry.stuck := by
  cases h1 : e.dn with
  | none => simp [ldap_send_entry, h1]
  | some dn =>
    cases h2 : c.rewrite_session RewriteContext.searchResult dn with
    | ok r => simp [ldap_send_entry, h1, h2, send_entry_attrs_eq]
    | unwilling => simp [ldap_send_entry, h1, h2]
    | err => simp [ldap_send_entry, h1, h2]

theorem ldap_send_entry_ok (c : Collab) (e : WireEntry) (dn : String) (r : Option String)
    (hdn : e.dn = some dn)
    (hrw : c.rewrite_session RewriteContext.searchResult dn = RewriteResult.ok r) :
    ldap_send_entry c e
      = SendEntry.sent ⟨r.getD dn, c.dn_normalize (r.getD dn),
          e.attrs.filterMap (linked c)⟩ := by
  unfold ldap_send_entry
  simp only [hdn, hrw, send_entry_attrs_eq]
  cases r <;> rfl

/-! ## Claims about ldap_send_entry -/

/-- C7: object class value filtering in ldap_send_entry.  For every list of remote
object class values and every object class map, the filtering loop ends (within one
loop test per value plus one) and the value list it leaves is a permutation of the
remote-to-local images of exactly the values that have a mapping; so its length is
the input length minus the number of unmapped values, one fewer when exactly one
value is unmapped.  The attribute linked into the entry carries that list. -/
theorem C7_objectclass_filtering (c : Collab) (name : String) (vals : List String) :
    ∃ out, oc_filter c.oc_map vals = some out
      ∧ out.Perm (vals.filterMap c.oc_map)
      ∧ out.length = vals.length - (vals.filter (fun v => (c.oc_map v).isNone)).length
      ∧ ((vals.filter (fun v => (c.oc_map v).isNone)).length = 1
          → out.length + 1 = vals.length)
      ∧ ∀ mapped desc, c.at_map name = some mapped → resolve_desc c mapped = some desc →
          strcasecmp_eq mapped "objectclass" = true →
          send_entry_attr c (name, some vals) = AttrStep.link ⟨desc, out⟩ := by
  obtain ⟨out, hout, hperm⟩ := oc_filter_spec c.oc_map vals
  have hlen := filterMap_length_add c.oc_map vals
  have hl : out.length = (vals.filterMap c.oc_map).length := hperm.length_eq
  refine ⟨out, hout, hperm, by omega, by omega, ?_⟩
  intro mapped desc h1 h2 h3
  simp [send_entry_attr, h1, h2, h3, hout]

/-- Witness for C7: three remote object classes of which one has no mapping give a
two-valued objectClass attribute. -/
theorem C7_objectclass_filtering_witness :
    ∃ out, oc_filter two_classes ["msExchUser", "inetOrgPerson", "top"] = some out
      ∧ out.length + 1 = 3
      ∧ send_entry_attr mapped_backend
          ("objectClass", some ["msExchUser", "inetOrgPerson", "top"])
        = AttrStep.link ⟨⟨"objectClass", "1.3.6.1.4.1.1466.115.121.1.15"⟩, out⟩ := by
  obtain ⟨out, h1, _, _, h4, h5⟩ := C7_objectclass_filtering mapped_backend "objectClass"
    ["msExchUser", "inetOrgPerson", "top"]
  exact ⟨out, h1, h4 (by decide),
    h5 "objectClass" ⟨"objectClass", "1.3.6.1.4.1.1466.115.121.1.15"⟩ (by decide)
      (by decide) (by decide)⟩

/-- C8: attribute selection in ldap_send_entry.  For every wire entry whose DN is
obtained and rewritten successfully, send_search_entry is called with an entry whose
attributes are, in wire order, one per wire attribute whose name has a
remote-to-local mapping and whose mapped name resolves to a descriptor (slap_str2ad,
else slap_str2undef_ad); the other wire attributes are skipped and nothing else is
dropped or reordered. -/
theorem C8_attribute_selection (c : Collab) (e : WireEntry) (dn : String)
    (r : Option String) (hdn : e.dn = some dn)
    (hrw : c.rewrite_session RewriteContext.searchResult dn = RewriteResult.ok r) :
    ∃ ent, ldap_send_entry c e = SendEntry.sent ent
      ∧ ent.e_attrs.map (fun a => a.a_desc)
          = e.attrs.filterMap (fun a =>
              match c.at_map a.1 with
              | none => none
              | some mapped =>
                match c.slap_str2ad mapped with
                | some d => some d
                | none => c.slap_str2undef_ad mapped) := by
  refine ⟨_, ldap_send_entry_ok c e dn r hdn hrw, ?_⟩
  simp only [List.map_filterMap]
  congr 1
  funext a
  rw [linked_desc]
  cases c.at_map a.1 <;> rfl

/-- Witness for C8: of four wire attributes, the unmapped userPassword and the
unresolvable x-unknown are skipped; cn and the renamed member stay, in wire order. -/
theorem C8_attribute_selection_witness :
    ∃ ent, ldap_send_entry mapped_backend
        ⟨some "cn=a,dc=remote", [("cn", some ["a"]), ("userPassword", some ["s"]),
          ("x-unknown", some ["u"]), ("member", some ["cn=b"])]⟩ = SendEntry.sent ent
      ∧ ent.e_attrs.map (fun a => a.a_desc)
          = [⟨"cn", "1.3.6.1.4.1.1466.115.121.1.15"⟩, ⟨"uniqueMember", SLAPD_DN_OID⟩] := by
  obtain ⟨ent, h1, h2⟩ := C8_attribute_selection mapped_backend
    ⟨some "cn=a,dc=remote", [("cn", some ["a"]), ("userPassword", some ["s"]),
      ("x-unknown", some ["u"]), ("member", some ["cn=b"])]⟩
    "cn=a,dc=remote" (some "cn=a,dc=local") rfl (by decide)
  exact ⟨ent, h1, h2.trans (by decide)⟩

/-- C9: DN-valued attribute rewriting in ldap_send_entry.  For every wire attribute
with values whose mapped name is not objectclass and whose descriptor has the
distinguishedName syntax, the linked attribute has as many values as the wire
attribute, in the same order, and each value depends on its own rewrite outcome
only: the replacement when rewrite_session answers OK with a new string, the wire
value itself when it answers OK without one, UNWILLING or ERR.  Whatever the
outcomes, the attribute is part of the entry that is sent. -/
theorem C9_dn_valued_rewriting (c : Collab) (name mapped : String)
    (desc : AttributeDescription) (vals : List String)
    (hmap : c.at_map name = some mapped) (hdesc : resolve_desc c mapped = some desc)
    (hoc : strcasecmp_eq mapped "objectclass" = false)
    (hsyn : desc.ssyn_oid = SLAPD_DN_OID) :
    ∃ out, send_entry_attr c (name, some vals) = AttrStep.link ⟨desc, out⟩
      ∧ out.length = vals.length
      ∧ (∀ (i : Nat) (v : String), vals[i]? = some v →
          (∀ newval, c.rewrite_session RewriteContext.searchResult v
              = RewriteResult.ok (some newval) → out[i]? = some newval)
          ∧ (c.rewrite_session RewriteContext.searchResult v = RewriteResult.ok none
              → out[i]? = some v)
          ∧ (c.rewrite_session RewriteContext.searchResult v = RewriteResult.unwilling
              → out[i]? = some v)
          ∧ (c.rewrite_session RewriteContext.searchResult v = RewriteResult.err
              → out[i]? = some v))
      ∧ ∀ (e : WireEntry) (dn : String) (r : Option String), e.dn = some dn →
          c.rewrite_session RewriteContext.searchResult dn = RewriteResult.ok r →
          (name, some vals) ∈ e.attrs →
          ∃ ent, ldap_send_entry c e = SendEntry.sent ent
            ∧ (⟨desc, out⟩ : Attribute) ∈ ent.e_attrs := by
  have hattr : send_entry_attr c (name, some vals)
      = AttrStep.link ⟨desc, vals.map (rewrite_value c)⟩ := by
    simp [send_entry_attr, hmap, hdesc, hoc, hsyn]
  refine ⟨vals.map (rewrite_value c), hattr, by simp, ?_, ?_⟩
  · intro i v hv
    have hout : (vals.map (rewrite_value c))[i]? = some (rewrite_value c v) := by
      simp [List.getElem?_map, hv]
    refine ⟨?_, ?_, ?_, ?_⟩
    · intro newval h
      rw [hout]; simp [rewrite_value, h]
    · intro h
      rw [hout]; simp [rewrite_value, h]
    · intro h
      rw [hout]; simp [rewrite_value, h]
    · intro h
      rw [hout]; simp [rewrite_value, h]
  · intro e dn r hdn hrw hmem
    refine ⟨_, ldap_send_entry_ok c e dn r hdn hrw, ?_⟩
    simp only [List.mem_filterMap]
    exact ⟨(name, some vals), hmem, by simp [linked, hattr]⟩

/-- Witness for C9: of the three values of member, the first is replaced, the second
(on which the rewrite engine fails) and the third (no rule matches) stay as sent. -/
theorem C9_dn_valued_rewriting_witness :
    ∃ out, send_entry_attr mapped_backend
        ("member", some ["cn=a,dc=remote", "bad", "cn=c"])
        = AttrStep.link ⟨⟨"uniqueMember", SLAPD_DN_OID⟩, out⟩
      ∧ out.length = 3
      ∧ out[0]? = some "cn=a,dc=local" ∧ out[1]? = some "bad" ∧ out[2]? = some "cn=c" := by
  obtain ⟨out, h1, h2, h3, _⟩ := C9_dn_valued_rewriting mapped_backend "member"
    "uniqueMember" ⟨"uniqueMember", SLAPD_DN_OID⟩ ["cn=a,dc=remote", "bad", "cn=c"]
    (by decide) (by decide) (by decide) rfl
  exact ⟨out, h1, h2,
    (h3 0 "cn=a,dc=remote" rfl).1 "cn=a,dc=local" (by decide),
    (h3 1 "bad" rfl).2.2.2 (by decide),
    (h3 2 "cn=c" rfl).2.1 (by decide)⟩

/-! ## The result loop -/

theorem count_after_add (count : Int) (a b : Nat) :
    count_after (count_after count a) b = count_after count (a + b) := by
  induction b with
  | zero => rfl
  | succ b ih =>
    show int_incr (count_after (count_after count a) b) = int_incr (count_after count (a + b))
    rw [ih]

/-- Counting up from 0, the `int count` holds the number of increments reduced to
the range of a 32-bit int. -/
theorem count_after_zero (k : Nat) :
    count_after 0 k = ((k : Int) + 2147483648) % 4294967296 - 2147483648 := by
  induction k with
  | zero => rfl
  | succ k ih =>
    show int_incr (count_after 0 k) = _
    rw [ih]
    unfold int_incr
    push_cast
    omega

theorem count_after_small (k : Nat) (h : k < 2147483648) : count_after 0 k = (k : Int) := by
  rw [count_after_zero]
  omega

theorem pump_body_pending (c : Collab) (abandon : Nat → Bool) (msgid : Int)
    (cur : PollResult) (iter : Nat) (count : Int) (hcur : is_pending cur = true)
    (hab : abandon iter = false) :
    pump_body c abandon msgid cur iter count
      = PumpStep.next (pump_emits c [cur])
          (count_after count (wire_entries [cur]).length) := by
  cases cur with
  | timeout => simp [pump_body, hab, pump_emits, wire_entries, count_after]
  | entry e =>
    have hns := ldap_send_entry_not_stuck c e
    cases h : ldap_send_entry c e with
    | dropped => simp [pump_body, hab, pump_emits, wire_entries, h, count_after]
    | sent ent => simp [pump_body, hab, pump_emits, wire_entries, h, count_after]
    | stuck => exact absurd h hns
  | other code text matched => simp [is_pending] at hcur
  | fail => simp [is_pending] at hcur

theorem pump_emits_cons (c : Collab) (x : PollResult) (l : List PollResult) :
    pump_emits c (x :: l) = pump_emits c [x] ++ pump_emits c l := by
  cases x with
  | entry e => cases h : ldap_send_entry c e <;> simp [pump_emits, h]
  | timeout => simp [pump_emits]
  | other code text matched => simp [pump_emits]
  | fail => simp [pump_emits]

theorem wire_entries_cons (x : PollResult) (l : List PollResult) :
    wire_entries (x :: l) = wire_entries [x] ++ wire_entries l := by
  cases x <;> simp [wire_entries]

/-- While the flag is clear and the return values are time-outs and entry messages,
the loop handles them one after the other, executes `count++` once per entry
message, and goes on with the next return value. -/
theorem pump_prefix (c : Collab) (abandon : Nat → Bool) (msgid : Int) :
    ∀ (pre : List PollResult) (cur m : PollResult) (rest : List PollResult)
      (iter : Nat) (count : Int),
      (∀ x ∈ cur :: pre, is_pending x = true) →
      (∀ j, j ≤ pre.length → abandon (iter + j) = false) →
      pump c abandon msgid (pre ++ m :: rest) cur iter count
        = (pump_emits c (cur :: pre)
            ++ (pump c abandon msgid rest m (iter + pre.length + 1)
                (count_after count (wire_entries (cur :: pre)).length)).1,
           (pump c abandon msgid rest m (iter + pre.length + 1)
                (count_after count (wire_entries (cur :: pre)).length)).2) := by
  intro pre
  induction pre with
  | nil =>
    intro cur m rest iter count hpend hab
    have hb := pump_body_pending c abandon msgid cur iter count
      (hpend cur (List.mem_cons_self _ _)) (by simpa using hab 0 (Nat.zero_le _))
    rw [pump]
    simp only [hb, List.nil_append, List.length_nil, Nat.add_zero]
  | cons x pre ih =>
    intro cur m rest iter count hpend hab
    have hb := pump_body_pending c abandon msgid cur iter count
      (hpend cur (List.mem_cons_self _ _)) (by simpa using hab 0 (Nat.zero_le _))
    have hrec := ih x m rest (iter + 1) (count_after count (wire_entries [cur]).length)
      (fun y hy => hpend y (List.mem_cons_of_mem _ hy))
      (fun j hj => by
        have := hab (j + 1) (by simpa using hj)
        rwa [show iter + 1 + j = iter + (j + 1) by omega])
    rw [pump]
    simp only [hb, List.cons_append]
    rw [hrec, pump_emits_cons c cur (x :: pre), wire_entries_cons cur (x :: pre),
      count_after_add]
    simp only [List.length_append, List.length_cons, List.append_assoc]
    have h1 : iter + 1 + pre.length + 1 = iter + (pre.length + 1) + 1 := by omega
    rw [h1]

/-- From the first call of ldap_result on: the same, for the loop as ldap_back_search
enters it (rc = 0, count = 0). -/
theorem pump_start (c : Collab) (abandon : Nat → Bool) (msgid : Int)
    (pre : List PollResult) (m : PollResult) (rest : List PollResult)
    (hpend : ∀ x ∈ pre, is_pending x = true)
    (hab : ∀ j, j ≤ pre.length → abandon j = false) :
    pump c abandon msgid (pre ++ m :: rest) PollResult.timeout 0 0
      = (pump_emits c pre
            ++ (pump c abandon msgid rest m (pre.length + 1)
                (count_after 0 (wire_entries pre).length)).1,
         (pump c abandon msgid rest m (pre.length + 1)
                (count_after 0 (wire_entries pre).length)).2) := by
  have h := pump_prefix c abandon msgid pre PollResult.timeout m rest 0 0
    (fun x hx => by
      rcases List.mem_cons.mp hx with rfl | hx
      · rfl
      · exact hpend x hx)
    (fun j hj => by simpa using hab j hj)
  simpa [pump_emits, wire_entries] using h

theorem is_ok_iff (x : RewriteResult) : x.is_ok = true ↔ ∃ out, x = RewriteResult.ok out := by
  cases x <;> simp [RewriteResult.is_ok]

theorem not_reject_iff (x : LimitCheck) :
    x ≠ LimitCheck.reject ↔ ∃ l, x = LimitCheck.proceed l := by
  cases x <;> simp

theorem set_options_request_side (d t s : Int) :
    (set_options d t s).all is_request_side = true := by
  unfold set_options
  split_ifs <;> simp [is_request_side]

/-- A request that gets as far as the result loop has made only ldap_set_option and
ldap_search calls before it, and ends the way the loop and the code after it end. -/
theorem ldap_back_search_reaches (c : Collab) (w : World) (r : Request)
    (h : reaches_loop c w r) :
    ∃ before, before.all is_request_side = true
      ∧ (before.filter is_remote_search).length = 1
      ∧ ldap_back_search c w r
          = (before ++ (search_and_pump c w).1, (search_and_pump c w).2) := by
  obtain ⟨hconn, ht, hs, hbind, hbase, hfilter, _⟩ := h
  obtain ⟨t, ht⟩ := (not_reject_iff _).mp ht
  obtain ⟨s, hs⟩ := (not_reject_iff _).mp hs
  obtain ⟨mb, hbase⟩ := (is_ok_iff _).mp hbase
  obtain ⟨mf, hfilter⟩ := (is_ok_iff _).mp hfilter
  refine ⟨set_options r.deref t s ++ [Event.ldap_search (mb.getD r.base) r.scope
      (map_filter c (effective_filter r.filterstr mf)) (map_attrs c r.attrs) r.attrsonly],
    ?_, ?_, ?_⟩
  · have h1 := set_options_request_side r.deref t s
    simp only [List.all_append, h1, Bool.true_and]
    simp [is_request_side]
  · have h2 : (set_options r.deref t s).filter is_remote_search = [] := by
      unfold set_options
      split_ifs <;> simp [is_remote_search]
    simp [List.filter_append, h2, is_remote_search]
  · simp [ldap_back_search, hconn, ht, hs, hbind, hbase, hfilter]

theorem search_and_pump_done (c : Collab) (w : World) (evs : List Event) (sres : Int)
    (text matched : Option String) (count : Int) (hmsgid : w.msgid ≠ -1)
    (hpump : pump c w.abandon w.msgid w.stream PollResult.timeout 0 0
      = (evs, PumpExit.done sres text matched count))
    (hmatched : ∀ m, matched = some m →
      (c.rewrite_session RewriteContext.matchedDn m).is_ok = true) :
    ∃ mdn, search_and_pump c w
        = (evs ++ [Event.send_search_result sres mdn text count], some 0)
      ∧ (matched = none → mdn = none) := by
  cases matched with
  | none =>
    exact ⟨none, by simp [search_and_pump, hmsgid, hpump, after_loop], fun _ => rfl⟩
  | some m =>
    obtain ⟨out, hout⟩ := (is_ok_iff _).mp (hmatched m rfl)
    cases out with
    | none =>
      exact ⟨some m, by simp [search_and_pump, hmsgid, hpump, after_loop, hout],
        fun h => by cases h⟩
    | some mm =>
      exact ⟨some mm, by simp [search_and_pump, hmsgid, hpump, after_loop, hout],
        fun h => by cases h⟩

theorem emitted_append (a b : List Event) : emitted (a ++ b) = emitted a ++ emitted b := by
  induction a with
  | nil => rfl
  | cons x a ih => cases x <;> simp [emitted, ih]

theorem emitted_request_side (a : List Event) (h : a.all is_request_side = true) :
    emitted a = [] := by
  induction a with
  | nil => rfl
  | cons x a ih =>
    simp only [List.all_cons, Bool.and_eq_true] at h
    cases x <;> simp_all [emitted, is_request_side]

theorem delivery_request_side (a : List Event) (h : a.all is_request_side = true) :
    a.filter is_delivery = [] ∧ a.filter is_abandon = [] := by
  induction a with
  | nil => exact ⟨rfl, rfl⟩
  | cons x a ih =>
    simp only [List.all_cons, Bool.and_eq_true] at h
    cases x <;> simp_all [is_delivery, is_abandon, is_request_side]

theorem pump_emits_quiet (c : Collab) (l : List PollResult) :
    (pump_emits c l).filter is_delivery = [] ∧ (pump_emits c l).filter is_abandon = []
      ∧ (pump_emits c l).filter is_remote_search = [] := by
  induction l with
  | nil => exact ⟨rfl, rfl, rfl⟩
  | cons x l ih =>
    cases x with
    | entry e =>
      cases h : ldap_send_entry c e <;>
        simp [pump_emits, h, ih, is_delivery, is_abandon, is_remote_search]
    | timeout => simpa [pump_emits] using ih
    | other code text matched => simpa [pump_emits] using ih
    | fail => simpa [pump_emits] using ih

/-- The entries sent while handling some return values are the translations of the
translatable entry messages among them, in order. -/
theorem emitted_pump_emits (c : Collab) (l : List PollResult) :
    List.Forall₂ (fun e ent => ldap_send_entry c e = SendEntry.sent ent)
      ((wire_entries l).filter (translatable c)) (emitted (pump_emits c l)) := by
  induction l with
  | nil => exact List.Forall₂.nil
  | cons x l ih =>
    cases x with
    | entry e =>
      cases hdn : e.dn with
      | none =>
        have h : ldap_send_entry c e = SendEntry.dropped := by simp [ldap_send_entry, hdn]
        simpa [pump_emits, wire_entries, translatable, hdn, h] using ih
      | some dn =>
        cases hrw : c.rewrite_session RewriteContext.searchResult dn with
        | ok out =>
          have h := ldap_send_entry_ok c e dn out hdn hrw
          simp only [pump_emits, wire_entries, h, emitted]
          have ht : translatable c e = true := by
            simp [translatable, hdn, hrw, RewriteResult.is_ok]
          simp only [List.filter_cons, ht, if_true]
          exact List.Forall₂.cons h ih
        | unwilling =>
          have h : ldap_send_entry c e = SendEntry.dropped := by
            simp [ldap_send_entry, hdn, hrw]
          simpa [pump_emits, wire_entries, translatable, hdn, hrw, h,
            RewriteResult.is_ok] using ih
        | err =>
          have h : ldap_send_entry c e = SendEntry.dropped := by
            simp [ldap_send_entry, hdn, hrw]
          simpa [pump_emits, wire_entries, translatable, hdn, hrw, h,
            RewriteResult.is_ok] using ih
    | timeout => simpa [pump_emits, wire_entries] using ih
    | other code text matched => simpa [pump_emits, wire_entries] using ih
    | fail => simpa [pump_emits, wire_entries] using ih

theorem pump_emits_eq_map (c : Collab) (l : List PollResult) :
    pump_emits c l = (emitted (pump_emits c l)).map Event.send_search_entry := by
  induction l with
  | nil => rfl
  | cons x l ih =>
    cases x with
    | entry e =>
      cases h : ldap_send_entry c e with
      | sent ent =>
        simp only [pump_emits, h, emitted, List.map_cons]
        rw [← ih]
      | dropped => simpa [pump_emits, h] using ih
      | stuck => simpa [pump_emits, h] using ih
    | timeout => simpa [pump_emits] using ih
    | other code text matched => simpa [pump_emits] using ih
    | fail => simpa [pump_emits] using ih

theorem pump_other (c : Collab) (abandon : Nat → Bool) (msgid : Int)
    (rest : List PollResult) (code : Int) (text matched : Option String)
    (iter : Nat) (count : Int) (hab : abandon iter = false) :
    pump c abandon msgid rest (PollResult.other code text matched) iter count
      = ([], PumpExit.done (c.ldap_back_map_result code) text matched count) := by
  rw [pump]
  simp [pump_body, hab]

theorem pump_abandon (c : Collab) (abandon : Nat → Bool) (msgid : Int)
    (rest : List PollResult) (m : PollResult) (iter : Nat) (count : Int)
    (hm : m ≠ PollResult.fail) (hab : abandon iter = true) :
    pump c abandon msgid rest m iter count
      = ([Event.ldap_abandon msgid], PumpExit.abandoned) := by
  rw [pump]
  cases m with
  | fail => exact absurd rfl hm
  | timeout => simp [pump_body, hab]
  | entry e => simp [pump_body, hab]
  | other code text matched => simp [pump_body, hab]

/-- A stream whose messages are entry messages followed by one other message is a
run of time-outs and those entry messages, then that message. -/
theorem split_messages (code : Int) (text matched : Option String) :
    ∀ (stream : List PollResult) (es : List WireEntry),
      messages stream = es.map PollResult.entry ++ [PollResult.other code text matched] →
      ∃ pre rest, stream = pre ++ PollResult.other code text matched :: rest
        ∧ (∀ x ∈ pre, is_pending x = true) ∧ wire_entries pre = es := by
  intro stream
  induction stream with
  | nil =>
    intro es h
    cases es <;> simp [messages] at h
  | cons x xs ih =>
    intro es h
    cases x with
    | timeout =>
      obtain ⟨pre, rest, h1, h2, h3⟩ := ih es (by simpa [messages] using h)
      refine ⟨PollResult.timeout :: pre, rest, by simp [h1], ?_, by simpa [wire_entries] using h3⟩
      intro y hy
      rcases List.mem_cons.mp hy with rfl | hy
      · rfl
      · exact h2 y hy
    | entry e =>
      cases es with
      | nil => simp [messages] at h
      | cons e1 es1 =>
        simp only [messages, List.map_cons, List.cons_append, List.cons.injEq,
          PollResult.entry.injEq] at h
        obtain ⟨he, h⟩ := h
        subst he
        obtain ⟨pre, rest, h1, h2, h3⟩ := ih es1 h
        refine ⟨PollResult.entry e :: pre, rest, by simp [h1], ?_,
          by simp [wire_entries, h3]⟩
        intro y hy
        rcases List.mem_cons.mp hy with rfl | hy
        · rfl
        · exact h2 y hy
    | other c1 t1 m1 =>
      cases es with
      | nil =>
        simp only [messages, List.map_nil, List.nil_append, List.cons.injEq] at h
        exact ⟨[], xs, by simp [h.1], by simp, rfl⟩
      | cons e1 es1 => simp [messages] at h
    | fail =>
      cases es <;> simp [messages] at h

/-! ## Runs that end with the final result -/

theorem emitted_map_entries (ents : List Entry) :
    emitted (ents.map Event.send_search_entry) = ents := by
  induction ents with
  | nil => rfl
  | cons e l ih => simp [emitted, ih]

theorem delivery_map_entries (ents : List Entry) :
    (ents.map Event.send_search_entry).filter is_delivery = [] := by
  induction ents with
  | nil => rfl
  | cons e l ih => simp [is_delivery, ih]

theorem messages_entries (es : List WireEntry) (last : List PollResult) :
    messages (es.map PollResult.entry ++ last) = es.map PollResult.entry ++ messages last := by
  induction es with
  | nil => rfl
  | cons e l ih => simp [messages, ih]

/-- The run of a request of a privileged caller on which every rewrite succeeds and
no abandon is seen, over a stream whose messages are the entry messages es and then
one result message: request-side calls, the translations of es in order, one final
result carrying the mapped code and the value of the `int count` after es.length
increments; the function returns 0. -/
theorem happy_path_run (c : Collab) (w : World) (r : Request) (es : List WireEntry)
    (code : Int) (text matched : Option String)
    (hroot : w.isroot = true) (hconn : w.getconn = true) (hbind : w.dobind = true)
    (hmsgid : w.msgid ≠ -1)
    (hbase : (c.rewrite_session RewriteContext.searchBase r.base).is_ok = true)
    (hfilter : (c.rewrite_session RewriteContext.searchFilter r.filterstr).is_ok = true)
    (hentries : ∀ e ∈ es, translatable c e = true)
    (hmatched : ∀ m, matched = some m →
      (c.rewrite_session RewriteContext.matchedDn m).is_ok = true)
    (hab : ∀ i, w.abandon i = false)
    (hstream : messages w.stream
      = es.map PollResult.entry ++ [PollResult.other code text matched]) :
    ∃ (before : List Event) (ents : List Entry) (mdn : Option String),
      ldap_back_search c w r
        = (before ++ ents.map Event.send_search_entry
            ++ [Event.send_search_result (c.ldap_back_map_result code) mdn text
                (count_after 0 es.length)], some 0)
      ∧ before.all is_request_side = true
      ∧ List.Forall₂ (fun e ent => ldap_send_entry c e = SendEntry.sent ent) es ents
      ∧ (matched = none → mdn = none) := by
  obtain ⟨pre, rest, hsplit, hpend, hwire⟩ := split_messages code text matched w.stream es hstream
  have hreach : reaches_loop c w r := by
    refine ⟨hconn, ?_, ?_, hbind, hbase, hfilter, hmsgid⟩ <;> simp [limit_check, hroot]
  obtain ⟨before, hbefore, _, hrun⟩ := ldap_back_search_reaches c w r hreach
  have hpump : pump c w.abandon w.msgid w.stream PollResult.timeout 0 0
      = (pump_emits c pre, PumpExit.done (c.ldap_back_map_result code) text matched
          (count_after 0 es.length)) := by
    rw [hsplit, pump_start c w.abandon w.msgid pre _ rest hpend (fun j _ => hab j),
      pump_other c w.abandon w.msgid rest code text matched _ _ (hab _), hwire]
    simp
  obtain ⟨mdn, hsp, hmdn⟩ := search_and_pump_done c w _ _ text matched _ hmsgid hpump hmatched
  refine ⟨before, emitted (pump_emits c pre), mdn, ?_, hbefore, ?_, hmdn⟩
  · rw [hrun, hsp, ← pump_emits_eq_map]
    simp
  · have h := emitted_pump_emits c pre
    rw [hwire] at h
    have hall : es.filter (translatable c) = es :=
      List.filter_eq_self.mpr (fun e he => hentries e he)
    rwa [hall] at h

/-- The happy path over a stream of n copies of one entry message and a success
result, for a privileged caller on the backend plain: the one result delivered
carries the value of the `int count` after n increments, and n entries are sent. -/
theorem happy_path_replicate (n : Nat) :
    (ldap_back_search plain
        (world true 500 10
          (List.replicate n (PollResult.entry (person "cn=a" "a"))
            ++ [PollResult.other 0 none none]) (fun _ => false))
        (request (-1) (-1))).1.filter is_delivery
      = [Event.send_search_result 0 none none (count_after 0 n)]
    ∧ (emitted (ldap_back_search plain
        (world true 500 10
          (List.replicate n (PollResult.entry (person "cn=a" "a"))
            ++ [PollResult.other 0 none none]) (fun _ => false))
        (request (-1) (-1))).1).length = n := by
  have hstream : messages (world true 500 10
      (List.replicate n (PollResult.entry (person "cn=a" "a"))
        ++ [PollResult.other 0 none none]) (fun _ => false)).stream
      = (List.replicate n (person "cn=a" "a")).map PollResult.entry
          ++ [PollResult.other 0 none none] := by
    show messages (List.replicate n (PollResult.entry (person "cn=a" "a"))
        ++ [PollResult.other 0 none none]) = _
    rw [List.map_replicate]
    have h := messages_entries (List.replicate n (person "cn=a" "a"))
      [PollResult.other 0 none none]
    rw [List.map_replicate] at h
    exact h
  obtain ⟨before, ents, mdn, hrun, hbefore, hents, hmdn⟩ := happy_path_run plain
    (world true 500 10
      (List.replicate n (PollResult.entry (person "cn=a" "a"))
        ++ [PollResult.other 0 none none]) (fun _ => false))
    (request (-1) (-1)) (List.replicate n (person "cn=a" "a")) 0 none none
    rfl rfl rfl (by show (7 : Int) ≠ -1; decide) rfl rfl
    (fun e he => by rw [List.eq_of_mem_replicate he]; decide)
    (fun m h => by cases h) (fun _ => rfl) hstream
  have hlen : ents.length = n := by
    rw [← hents.length_eq, List.length_replicate]
  rw [hrun, hmdn rfl, List.length_replicate]
  refine ⟨?_, ?_⟩
  · have hd := delivery_request_side before hbefore
    simp only [List.filter_append, hd.1, delivery_map_entries, List.nil_append]
    rfl
  · simp only [emitted_append, emitted_request_side before hbefore, emitted_map_entries,
      List.nil_append]
    simpa [emitted] using hlen

/-! ## Claims about ldap_back_search -/

/-- C1, as stated, fails: with n = 2^31 translatable entry messages followed by a
success result, 2^31 entries are sent but the one final result carries the entry
count -2147483648, not n: the counter is a 32-bit int that `count++` takes from
INT_MAX to INT_MIN. -/
theorem C1_counterexample :
    (ldap_back_search plain
        (world true 500 10
          (List.replicate 2147483648 (PollResult.entry (person "cn=a" "a"))
            ++ [PollResult.other 0 none none]) (fun _ => false))
        (request (-1) (-1))).1.filter is_delivery
      = [Event.send_search_result 0 none none (-2147483648)]
    ∧ (emitted (ldap_back_search plain
        (world true 500 10
          (List.replicate 2147483648 (PollResult.entry (person "cn=a" "a"))
            ++ [PollResult.other 0 none none]) (fun _ => false))
        (request (-1) (-1))).1).length = 2147483648 := by
  have h := happy_path_replicate 2147483648
  have e : count_after 0 2147483648 = -2147483648 := by
    rw [count_after_zero]
    decide
  rw [e] at h
  exact h

/-- C1, amended: happy path of ldap_back_search.  For a privileged caller (whatever
limits are requested or configured) with a bound upstream session on which
ldap_search is issued, when the rewrites of base, filter, result DNs and matched DN
all return OK, the abandon flag is never seen set, and the messages arriving are the
n entry messages es followed by one result message with code c: the function makes
only ldap_set_option and ldap_search calls, then sends the n translated entries in
stream order, then calls send_search_result once with the mapped code of c (success
when the map leaves success alone) and the value of its 32-bit int counter, which is
n reduced to the range of an int and so is n whenever n < 2^31; it returns 0. -/
theorem C1_happy_path (c : Collab) (w : World) (r : Request) (es : List WireEntry)
    (code : Int) (text matched : Option String)
    (hroot : w.isroot = true) (hconn : w.getconn = true) (hbind : w.dobind = true)
    (hmsgid : w.msgid ≠ -1)
    (hbase : (c.rewrite_session RewriteContext.searchBase r.base).is_ok = true)
    (hfilter : (c.rewrite_session RewriteContext.searchFilter r.filterstr).is_ok = true)
    (hentries : ∀ e ∈ es, translatable c e = true)
    (hmatched : ∀ m, matched = some m →
      (c.rewrite_session RewriteContext.matchedDn m).is_ok = true)
    (hab : ∀ i, w.abandon i = false)
    (hstream : messages w.stream
      = es.map PollResult.entry ++ [PollResult.other code text matched]) :
    ∃ (before : List Event) (ents : List Entry) (mdn : Option String) (sres nentries : Int),
      ldap_back_search c w r
        = (before ++ ents.map Event.send_search_entry
            ++ [Event.send_search_result sres mdn text nentries], some 0)
      ∧ before.all is_request_side = true
      ∧ List.Forall₂ (fun e ent => ldap_send_entry c e = SendEntry.sent ent) es ents
      ∧ sres = c.ldap_back_map_result code
      ∧ (code = LDAP_SUCCESS → c.ldap_back_map_result LDAP_SUCCESS = LDAP_SUCCESS →
          sres = LDAP_SUCCESS)
      ∧ nentries = ((es.length : Int) + 2147483648) % 4294967296 - 2147483648
      ∧ (es.length < 2147483648 → nentries = (es.length : Int)) := by
  obtain ⟨before, ents, mdn, hrun, hbefore, hents, _⟩ :=
    happy_path_run c w r es code text matched hroot hconn hbind hmsgid hbase hfilter
      hentries hmatched hab hstream
  refine ⟨before, ents, mdn, c.ldap_back_map_result code, count_after 0 es.length,
    hrun, hbefore, hents, rfl, ?_, count_after_zero _, count_after_small _⟩
  intro h1 h2
  rw [h1, h2]

/-- Witness for C1 (scenario A): a privileged caller, a subtree search, two entries
and then a success result without diagnostic text: two entries are sent, then the
result success with entry count 2. -/
theorem C1_happy_path_witness :
    ∃ (before : List Event) (ents : List Entry) (mdn : Option String),
      ldap_back_search plain
          (world true 500 10 [PollResult.entry (person "cn=a" "a"), PollResult.timeout,
            PollResult.entry (person "cn=b" "b"), PollResult.other 0 none none]
            (fun _ => false))
          (request 50 (-1))
        = (before ++ ents.map Event.send_search_entry
            ++ [Event.send_search_result LDAP_SUCCESS mdn none 2], some 0)
      ∧ ents.length = 2 := by
  obtain ⟨before, ents, mdn, sres, nentries, h1, _, h3, _, h5, _, h7⟩ := C1_happy_path plain
    (world true 500 10 [PollResult.entry (person "cn=a" "a"), PollResult.timeout,
      PollResult.entry (person "cn=b" "b"), PollResult.other 0 none none] (fun _ => false))
    (request 50 (-1)) [person "cn=a" "a", person "cn=b" "b"] 0 none none
    rfl rfl rfl (by decide) rfl rfl (by decide) (by simp) (fun _ => rfl) rfl
  have hs : sres = LDAP_SUCCESS := h5 rfl rfl
  have hn : nentries = 2 := h7 (by decide)
  rw [hs, hn] at h1
  exact ⟨before, ents, mdn, h1, h3.length_eq.symm⟩

/-- C3, as stated, fails: a non-privileged caller with hard size limit 10 who asks
for size limit 50 is answered with the code unwilling to perform (53), and no
result with the code administrative limit exceeded (11) is delivered. -/
theorem C3_counterexample :
    ldap_back_search plain (world false 500 10 [] (fun _ => false)) (request 50 (-1))
        = ([Event.send_search_result 53 none none 0], some 0)
      ∧ ∀ m t n, Event.send_search_result LDAP_ADMINLIMIT_EXCEEDED m t n
          ∉ (ldap_back_search plain (world false 500 10 [] (fun _ => false))
              (request 50 (-1))).1 := by
  refine ⟨by decide, ?_⟩
  intro m t n h
  have h1 : (ldap_back_search plain (world false 500 10 [] (fun _ => false))
      (request 50 (-1))).1 = [Event.send_search_result 53 none none 0] := by decide
  rw [h1] at h
  simp [LDAP_ADMINLIMIT_EXCEEDED] at h

/-- C3, amended: for every non-privileged caller for whom a connection is found,
if the hard time limit or the hard size limit is greater than 0 and the requested
limit exceeds it, the call consists of exactly one send_search_result with the code
unwilling to perform and entry count 0; no entry is sent, ldap_search is not called,
and the function returns 0. -/
theorem C3_limit_rejection (c : Collab) (w : World) (r : Request)
    (hconn : w.getconn = true) (hroot : w.isroot = false)
    (h : (0 < w.limit.lms_t_hard ∧ w.limit.lms_t_hard < r.tlimit)
      ∨ (0 < w.limit.lms_s_hard ∧ w.limit.lms_s_hard < r.slimit)) :
    ldap_back_search c w r
        = ([Event.send_search_result LDAP_UNWILLING_TO_PERFORM none none 0], some 0)
      ∧ emitted (ldap_back_search c w r).1 = []
      ∧ (ldap_back_search c w r).1.filter is_remote_search = [] := by
  have key : ldap_back_search c w r
      = ([Event.send_search_result LDAP_UNWILLING_TO_PERFORM none none 0], some 0) := by
    rcases h with ⟨h1, h2⟩ | ⟨h1, h2⟩
    · have ht : limit_check w.isroot r.tlimit w.limit.lms_t_soft w.limit.lms_t_hard
          = LimitCheck.reject := by
        have h3 : w.limit.lms_t_hard ≠ 0 := by omega
        simp [limit_check, hroot, h1, h2, h3]
      simp [ldap_back_search, hconn, ht]
    · have hs : limit_check w.isroot r.slimit w.limit.lms_s_soft w.limit.lms_s_hard
          = LimitCheck.reject := by
        have h3 : w.limit.lms_s_hard ≠ 0 := by omega
        simp [limit_check, hroot, h1, h2, h3]
      cases ht : limit_check w.isroot r.tlimit w.limit.lms_t_soft w.limit.lms_t_hard with
      | reject => simp [ldap_back_search, hconn, ht]
      | proceed t => simp [ldap_back_search, hconn, ht, hs]
  rw [key]
  exact ⟨rfl, rfl, rfl⟩

/-- Witness for C3 (scenario B): hard size limit 10, requested size limit 50. -/
theorem C3_limit_rejection_witness :
    ldap_back_search plain (world false 500 10 [] (fun _ => false)) (request 50 (-1))
      = ([Event.send_search_result LDAP_UNWILLING_TO_PERFORM none none 0], some 0) :=
  (C3_limit_rejection plain (world false 500 10 [] (fun _ => false)) (request 50 (-1))
    rfl rfl (Or.inr (by decide))).1

/-! ## Options set on the upstream handle -/

theorem option_values_append (opt : LdapOption) (a b : List Event) :
    option_values opt (a ++ b) = option_values opt a ++ option_values opt b := by
  induction a with
  | nil => rfl
  | cons x a ih =>
    cases x with
    | ldap_set_option o v =>
      by_cases h : o = opt <;> simp [option_values, h, ih]
    | ldap_search b1 s1 f1 a1 o1 => simpa [option_values] using ih
    | send_search_entry e => simpa [option_values] using ih
    | send_search_result e m t n => simpa [option_values] using ih
    | send_ldap_result e m t => simpa [option_values] using ih
    | ldap_abandon m => simpa [option_values] using ih
    | ldap_back_op_result => simpa [option_values] using ih

theorem option_values_pump (opt : LdapOption) (c : Collab) (abandon : Nat → Bool)
    (msgid : Int) :
    ∀ (stream : List PollResult) (cur : PollResult) (iter : Nat) (count : Int),
      option_values opt (pump c abandon msgid stream cur iter count).1 = [] := by
  intro stream
  induction stream with
  | nil =>
    intro cur iter count
    rw [pump]
    cases cur with
    | fail => simp [pump_body, option_values]
    | timeout => by_cases h : abandon iter = true <;> simp [pump_body, h, option_values]
    | other code text matched =>
      by_cases h : abandon iter = true <;> simp [pump_body, h, option_values]
    | entry e =>
      by_cases h : abandon iter = true
      · simp [pump_body, h, option_values]
      · cases hs : ldap_send_entry c e <;> simp [pump_body, h, hs, option_values]
  | cons x xs ih =>
    intro cur iter count
    rw [pump]
    cases cur with
    | fail => simp [pump_body, option_values]
    | timeout =>
      by_cases h : abandon iter = true
      · simp [pump_body, h, option_values]
      · simp [pump_body, h, option_values_append, ih]
    | other code text matched =>
      by_cases h : abandon iter = true <;> simp [pump_body, h, option_values]
    | entry e =>
      by_cases h : abandon iter = true
      · simp [pump_body, h, option_values]
      · cases hs : ldap_send_entry c e <;>
          simp [pump_body, h, hs, option_values, option_values_append, ih]

theorem option_values_after_loop (opt : LdapOption) (c : Collab) (sres : Int)
    (text matched : Option String) (count : Int) :
    option_values opt (after_loop c sres text matched count).1 = [] := by
  cases matched with
  | none => simp [after_loop, option_values]
  | some m =>
    cases h : c.rewrite_session RewriteContext.matchedDn m with
    | ok out => cases out <;> simp [after_loop, h, option_values]
    | unwilling => simp [after_loop, h, option_values]
    | err => simp [after_loop, h, option_values]

theorem option_values_search_and_pump (opt : LdapOption) (c : Collab) (w : World) :
    option_values opt (search_and_pump c w).1 = [] := by
  unfold search_and_pump
  by_cases hm : w.msgid = -1
  · simp [hm, option_values]
  · have hp := option_values_pump opt c w.abandon w.msgid w.stream PollResult.timeout 0 0
    simp only [hm, if_false]
    cases hq : pump c w.abandon w.msgid w.stream PollResult.timeout 0 0 with
    | mk evs how =>
      rw [hq] at hp
      cases how <;>
        simp_all [option_values_append, option_values, option_values_after_loop]

/-- Once a connection is found and both limit tests let the request go on with the
limits t and s, the options set during the whole call are those of lines 130-135. -/
theorem option_values_run (opt : LdapOption) (c : Collab) (w : World) (r : Request)
    (t s : Int) (hconn : w.getconn = true)
    (ht : limit_check w.isroot r.tlimit w.limit.lms_t_soft w.limit.lms_t_hard
      = LimitCheck.proceed t)
    (hs : limit_check w.isroot r.slimit w.limit.lms_s_soft w.limit.lms_s_hard
      = LimitCheck.proceed s) :
    option_values opt (ldap_back_search c w r).1
      = option_values opt (set_options r.deref t s) := by
  have hsp := option_values_search_and_pump opt c w
  by_cases hbind : w.dobind = true
  · cases hbase : c.rewrite_session RewriteContext.searchBase r.base with
    | unwilling =>
      simp [ldap_back_search, hconn, ht, hs, hbind, hbase, option_values_append,
        option_values]
    | err =>
      simp [ldap_back_search, hconn, ht, hs, hbind, hbase, option_values_append,
        option_values]
    | ok mb =>
      cases hfilter : c.rewrite_session RewriteContext.searchFilter r.filterstr with
      | unwilling =>
        simp [ldap_back_search, hconn, ht, hs, hbind, hbase, hfilter,
          option_values_append, option_values]
      | err => simp [ldap_back_search, hconn, ht, hs, hbind, hbase, hfilter]
      | ok mf =>
        simp [ldap_back_search, hconn, ht, hs, hbind, hbase, hfilter,
          option_values_append, option_values, hsp]
  · simp [ldap_back_search, hconn, ht, hs, hbind]

/-- C10, as stated, fails: with hard size limit 0 and soft size limit 500, a
non-privileged caller who asks for size limit 0 has 0 set as LDAP_OPT_SIZELIMIT on
the upstream handle, not 500; one who leaves the limit unspecified (-1) has no size
limit set at all. -/
theorem C10_counterexample :
    option_values LdapOption.LDAP_OPT_SIZELIMIT
        (ldap_back_search plain
          (world false 500 0 [PollResult.other 0 none none] (fun _ => false))
          (request 0 (-1))).1 = [0]
      ∧ option_values LdapOption.LDAP_OPT_SIZELIMIT
        (ldap_back_search plain
          (world false 500 0 [PollResult.other 0 none none] (fun _ => false))
          (request (-1) (-1))).1 = [] := by
  exact ⟨by decide, by decide⟩

/-- C10, amended: for a non-privileged caller for whom a connection is found and
whose configured hard size limit is 0, if the request is not rejected by the time
limit test then: a requested size limit greater than 0 is replaced by the soft size
limit, which is the one value set as LDAP_OPT_SIZELIMIT during the call (nothing is
set when the soft limit is -1); a requested size limit of 0 or less is kept as
requested.  The same holds for the time limit, with the two limits exchanged. -/
theorem C10_soft_limit_substitution (c : Collab) (w : World) (r : Request)
    (hconn : w.getconn = true) (hroot : w.isroot = false)
    (ht : limit_check w.isroot r.tlimit w.limit.lms_t_soft w.limit.lms_t_hard
      ≠ LimitCheck.reject)
    (hs : limit_check w.isroot r.slimit w.limit.lms_s_soft w.limit.lms_s_hard
      ≠ LimitCheck.reject) :
    (w.limit.lms_s_hard = 0 →
      (0 < r.slimit →
        option_values LdapOption.LDAP_OPT_SIZELIMIT (ldap_back_search c w r).1
          = if w.limit.lms_s_soft = -1 then [] else [w.limit.lms_s_soft])
      ∧ (r.slimit ≤ 0 →
        option_values LdapOption.LDAP_OPT_SIZELIMIT (ldap_back_search c w r).1
          = if r.slimit = -1 then [] else [r.slimit]))
    ∧ (w.limit.lms_t_hard = 0 →
      (0 < r.tlimit →
        option_values LdapOption.LDAP_OPT_TIMELIMIT (ldap_back_search c w r).1
          = if w.limit.lms_t_soft = -1 then [] else [w.limit.lms_t_soft])
      ∧ (r.tlimit ≤ 0 →
        option_values LdapOption.LDAP_OPT_TIMELIMIT (ldap_back_search c w r).1
          = if r.tlimit = -1 then [] else [r.tlimit])) := by
  obtain ⟨t, ht⟩ := (not_reject_iff _).mp ht
  obtain ⟨s, hs⟩ := (not_reject_iff _).mp hs
  have hsize := option_values_run LdapOption.LDAP_OPT_SIZELIMIT c w r t s hconn ht hs
  have htime := option_values_run LdapOption.LDAP_OPT_TIMELIMIT c w r t s hconn ht hs
  have hvs : option_values LdapOption.LDAP_OPT_SIZELIMIT (set_options r.deref t s)
      = if s = -1 then [] else [s] := by
    unfold set_options
    split_ifs <;> simp_all [option_values, option_values_append]
  have hvt : option_values LdapOption.LDAP_OPT_TIMELIMIT (set_options r.deref t s)
      = if t = -1 then [] else [t] := by
    unfold set_options
    split_ifs <;> simp_all [option_values, option_values_append]
  refine ⟨fun h0 => ⟨fun hpos => ?_, fun hle => ?_⟩, fun h0 => ⟨fun hpos => ?_, fun hle => ?_⟩⟩
  · have : s = w.limit.lms_s_soft := by
      simp [limit_check, hroot, h0, hpos] at hs
      exact hs.symm
    rw [hsize, hvs, this]
  · have : s = r.slimit := by
      have hn : ¬ (0 < r.slimit) := by omega
      simp [limit_check, hroot, h0, hn] at hs
      exact hs.symm
    rw [hsize, hvs, this]
  · have : t = w.limit.lms_t_soft := by
      simp [limit_check, hroot, h0, hpos] at ht
      exact ht.symm
    rw [htime, hvt, this]
  · have : t = r.tlimit := by
      have hn : ¬ (0 < r.tlimit) := by omega
      simp [limit_check, hroot, h0, hn] at ht
      exact ht.symm
    rw [htime, hvt, this]

/-- Witness for C10: hard size limit 0, soft size limit 500, requested size limit
1000: the size limit set upstream is 500. -/
theorem C10_soft_limit_substitution_witness :
    option_values LdapOption.LDAP_OPT_SIZELIMIT
        (ldap_back_search plain
          (world false 500 0 [PollResult.other 0 none none] (fun _ => false))
          (request 1000 (-1))).1 = [500] :=
  ((C10_soft_limit_substitution plain
    (world false 500 0 [PollResult.other 0 none none] (fun _ => false))
    (request 1000 (-1)) rfl rfl (by decide) (by decide)).1 rfl).1 (by decide)

/-- C4, as stated, fails: with a stream of three entries and the abandon flag set
right after the first entry has been polled, the loop test that follows that poll
sees the flag before the entry is handled: no entry is sent (rather than one),
ldap_abandon is called once, no result is delivered, and 0 is returned. -/
theorem C4_counterexample :
    ldap_back_search plain
        (world true 500 10 [PollResult.entry (person "cn=a" "a"),
          PollResult.entry (person "cn=b" "b"), PollResult.entry (person "cn=c" "c")]
          (set_after_poll 1))
        (request (-1) (-1))
      = ([Event.ldap_set_option LdapOption.LDAP_OPT_DEREF 0,
          Event.ldap_search "dc=example" 2 "(objectClass=*)" none 0,
          Event.ldap_abandon 7], some 0)
    ∧ (emitted (ldap_back_search plain
        (world true 500 10 [PollResult.entry (person "cn=a" "a"),
          PollResult.entry (person "cn=b" "b"), PollResult.entry (person "cn=c" "c")]
          (set_after_poll 1))
        (request (-1) (-1))).1).length ≠ 1 := by
  exact ⟨by decide, by decide⟩

/-- C4, amended: for a request that gets as far as the result loop, if the abandon
flag is clear at the loop tests up to the one that follows the return values pre
(time-outs and entry messages) and is set at the test that follows the next return
value m (not -1), then the function has sent exactly the translatable entries of
pre, in order; m itself, although polled, is not handled; ldap_abandon is called
once, for the pending message id; no result is delivered; nothing is sent
afterwards; and 0 is returned. -/
theorem C4_abandon_in_loop (c : Collab) (w : World) (r : Request)
    (pre rest : List PollResult) (m : PollResult)
    (hreach : reaches_loop c w r)
    (hstream : w.stream = pre ++ m :: rest)
    (hpend : ∀ x ∈ pre, is_pending x = true)
    (hm : m ≠ PollResult.fail)
    (hclear : ∀ j, j ≤ pre.length → w.abandon j = false)
    (hset : w.abandon (pre.length + 1) = true) :
    ∃ before : List Event,
      ldap_back_search c w r
        = (before ++ pump_emits c pre ++ [Event.ldap_abandon w.msgid], some 0)
      ∧ before.all is_request_side = true
      ∧ List.Forall₂ (fun e ent => ldap_send_entry c e = SendEntry.sent ent)
          ((wire_entries pre).filter (translatable c)) (emitted (ldap_back_search c w r).1)
      ∧ (ldap_back_search c w r).1.filter is_delivery = []
      ∧ (ldap_back_search c w r).1.filter is_abandon = [Event.ldap_abandon w.msgid] := by
  obtain ⟨before, hbefore, _, hrun⟩ := ldap_back_search_reaches c w r hreach
  have hmsgid : w.msgid ≠ -1 := hreach.2.2.2.2.2.2
  have hpump : pump c w.abandon w.msgid w.stream PollResult.timeout 0 0
      = (pump_emits c pre ++ [Event.ldap_abandon w.msgid], PumpExit.abandoned) := by
    rw [hstream, pump_start c w.abandon w.msgid pre m rest hpend hclear,
      pump_abandon c w.abandon w.msgid rest m _ _ hm hset]
  have hsp : search_and_pump c w
      = (pump_emits c pre ++ [Event.ldap_abandon w.msgid], some 0) := by
    simp [search_and_pump, hmsgid, hpump]
  have hfull : ldap_back_search c w r
      = (before ++ pump_emits c pre ++ [Event.ldap_abandon w.msgid], some 0) := by
    rw [hrun, hsp]
    simp
  have hq := pump_emits_quiet c pre
  have hd := delivery_request_side before hbefore
  refine ⟨before, hfull, hbefore, ?_, ?_, ?_⟩
  · rw [hfull]
    simp only [emitted_append, emitted_request_side before hbefore, List.nil_append]
    simpa [emitted] using emitted_pump_emits c pre
  · rw [hfull]
    simp [List.filter_append, hq.1, hd.1, is_delivery]
  · rw [hfull]
    simp [List.filter_append, hq.2.1, hd.2, is_abandon]

/-- Witness for C4: three entries, the flag seen at the loop test that follows the
second poll: the first entry is sent, the second (polled) and third are not. -/
theorem C4_abandon_in_loop_witness :
    ∃ before : List Event,
      ldap_back_search plain
          (world true 500 10 [PollResult.entry (person "cn=a" "a"),
            PollResult.entry (person "cn=b" "b"), PollResult.entry (person "cn=c" "c")]
            (set_after_poll 2))
          (request (-1) (-1))
        = (before ++ [Event.send_search_entry
              ⟨"cn=a", "cn=a", [⟨⟨"cn", "1.3.6.1.4.1.1466.115.121.1.15"⟩, ["a"]⟩]⟩]
            ++ [Event.ldap_abandon 7], some 0) := by
  obtain ⟨before, h, _⟩ := C4_abandon_in_loop plain
    (world true 500 10 [PollResult.entry (person "cn=a" "a"),
      PollResult.entry (person "cn=b" "b"), PollResult.entry (person "cn=c" "c")]
      (set_after_poll 2))
    (request (-1) (-1)) [PollResult.entry (person "cn=a" "a")]
    [PollResult.entry (person "cn=c" "c")] (PollResult.entry (person "cn=b" "b"))
    (by decide) rfl (by decide) (by decide) (by decide) (by decide)
  exact ⟨before, h⟩

/-- C6, as stated, fails: an entry message whose DN cannot be obtained is not sent,
yet it is counted: the final result carries entry count 1 while no entry was sent. -/
theorem C6_counterexample :
    ldap_back_search plain
        (world true 500 10 [PollResult.entry ⟨none, [("cn", some ["a"])]⟩,
          PollResult.other 0 none none] (fun _ => false))
        (request (-1) (-1))
      = ([Event.ldap_set_option LdapOption.LDAP_OPT_DEREF 0,
          Event.ldap_search "dc=example" 2 "(objectClass=*)" none 0,
          Event.send_search_result 0 none none 1], some 0)
    ∧ emitted (ldap_back_search plain
        (world true 500 10 [PollResult.entry ⟨none, [("cn", some ["a"])]⟩,
          PollResult.other 0 none none] (fun _ => false))
        (request (-1) (-1))).1 = [] := by
  exact ⟨by decide, by decide⟩

/-- C6, amended: for a request that gets as far as the result loop, whose stream is
the return values pre (time-outs and entry messages) followed by a result message,
with the abandon flag clear at every loop test up to then and the matched DN rewrite
(if any) returning OK: the entry count delivered with the final result is the value
of the 32-bit int counter after one `count++` per entry message in pre, whether
ldap_send_entry sent the entry or not: the number of entry messages reduced to the
range of an int.  The entries sent are the translatable ones among them, so with
fewer than 2^31 entry messages the count is the number of entries sent plus the
number of entry messages that were dropped. -/
theorem C6_entry_count (c : Collab) (w : World) (r : Request)
    (pre rest : List PollResult) (code : Int) (text matched : Option String)
    (hreach : reaches_loop c w r)
    (hstream : w.stream = pre ++ PollResult.other code text matched :: rest)
    (hpend : ∀ x ∈ pre, is_pending x = true)
    (hclear : ∀ j, j ≤ pre.length + 1 → w.abandon j = false)
    (hmatched : ∀ m, matched = some m →
      (c.rewrite_session RewriteContext.matchedDn m).is_ok = true) :
    ∃ (before : List Event) (mdn : Option String) (nentries : Int),
      ldap_back_search c w r
        = (before ++ pump_emits c pre
            ++ [Event.send_search_result (c.ldap_back_map_result code) mdn text
                nentries], some 0)
      ∧ before.all is_request_side = true
      ∧ List.Forall₂ (fun e ent => ldap_send_entry c e = SendEntry.sent ent)
          ((wire_entries pre).filter (translatable c)) (emitted (ldap_back_search c w r).1)
      ∧ nentries
          = (((wire_entries pre).length : Int) + 2147483648) % 4294967296 - 2147483648
      ∧ ((wire_entries pre).length < 2147483648 →
          nentries = ((wire_entries pre).length : Int)
          ∧ nentries = ((emitted (ldap_back_search c w r).1).length : Int)
              + (((wire_entries pre).filter (fun e => !translatable c e)).length : Int)) := by
  obtain ⟨before, hbefore, _, hrun⟩ := ldap_back_search_reaches c w r hreach
  have hmsgid : w.msgid ≠ -1 := hreach.2.2.2.2.2.2
  have hpump : pump c w.abandon w.msgid w.stream PollResult.timeout 0 0
      = (pump_emits c pre, PumpExit.done (c.ldap_back_map_result code) text matched
          (count_after 0 (wire_entries pre).length)) := by
    rw [hstream, pump_start c w.abandon w.msgid pre _ rest hpend
        (fun j hj => hclear j (by omega)),
      pump_other c w.abandon w.msgid rest code text matched _ _
        (hclear _ (Nat.le_refl _))]
    simp
  obtain ⟨mdn, hsp, _⟩ := search_and_pump_done c w _ _ text matched _ hmsgid hpump hmatched
  have hfull : ldap_back_search c w r
      = (before ++ pump_emits c pre
          ++ [Event.send_search_result (c.ldap_back_map_result code) mdn text
              (count_after 0 (wire_entries pre).length)], some 0) := by
    rw [hrun, hsp]
    simp
  have hem : emitted (ldap_back_search c w r).1 = emitted (pump_emits c pre) := by
    rw [hfull]
    simp [emitted_append, emitted_request_side before hbefore, emitted]
  have hf := emitted_pump_emits c pre
  have hsplit : ∀ l : List WireEntry,
      l.length = (l.filter (translatable c)).length
        + (l.filter (fun e => !translatable c e)).length := by
    intro l
    induction l with
    | nil => rfl
    | cons e l ih =>
      cases h : translatable c e <;> simp [List.filter_cons, h] <;> omega
  refine ⟨before, mdn, count_after 0 (wire_entries pre).length, hfull, hbefore, ?_,
    count_after_zero _, ?_⟩
  · rw [hem]; exact hf
  · intro hsmall
    have hc := count_after_small _ hsmall
    refine ⟨hc, ?_⟩
    rw [hc, hem, ← hf.length_eq]
    exact_mod_cast hsplit (wire_entries pre)

/-- Witness for C6: of two entry messages the second has no DN; one entry is sent and
the final result carries entry count 2. -/
theorem C6_entry_count_witness :
    ∃ (before : List Event) (mdn : Option String),
      ldap_back_search plain
          (world true 500 10 [PollResult.entry (person "cn=a" "a"),
            PollResult.entry ⟨none, []⟩, PollResult.other 0 none none] (fun _ => false))
          (request (-1) (-1))
        = (before ++ [Event.send_search_entry
              ⟨"cn=a", "cn=a", [⟨⟨"cn", "1.3.6.1.4.1.1466.115.121.1.15"⟩, ["a"]⟩]⟩]
            ++ [Event.send_search_result 0 mdn none 2], some 0) := by
  obtain ⟨before, mdn, nentries, h, _, _, _, h5⟩ := C6_entry_count plain
    (world true 500 10 [PollResult.entry (person "cn=a" "a"),
      PollResult.entry ⟨none, []⟩, PollResult.other 0 none none] (fun _ => false))
    (request (-1) (-1))
    [PollResult.entry (person "cn=a" "a"), PollResult.entry ⟨none, []⟩] []
    0 none none (by decide) rfl (by decide) (fun _ _ => rfl) (by simp)
  have hn : nentries = 2 := (h5 (by decide)).1
  rw [hn] at h
  exact ⟨before, mdn, h⟩

/-- C5, at the failing input: when the searchFilter rewrite returns
REWRITE_REGEXEC_ERR, ldap_back_search returns -1 after the ldap_set_option calls
without delivering any result (no operations error result reaches the caller);
ldap_search is not called and no entry is sent.  The sibling branch for the search
base does deliver the operations error result. -/
theorem C5_filter_error_no_result :
    ldap_back_search (with_rewrite (failing_in RewriteContext.searchFilter RewriteResult.err))
        (world false 500 10 [] (fun _ => false)) (request (-1) (-1))
      = ([Event.ldap_set_option LdapOption.LDAP_OPT_DEREF 0], some (-1))
    ∧ ldap_back_search (with_rewrite (failing_in RewriteContext.searchBase RewriteResult.err))
        (world false 500 10 [] (fun _ => false)) (request (-1) (-1))
      = ([Event.ldap_set_option LdapOption.LDAP_OPT_DEREF 0,
          Event.send_ldap_result LDAP_OPERATIONS_ERROR none (some "Operations error")],
         some (-1)) := by
  exact ⟨by decide, by decide⟩

/-- C2, at the failing inputs: with a bound upstream session and the abandon flag
never set, a searchFilter rewrite that returns REWRITE_REGEXEC_ERR, and likewise a
matchedDn rewrite that returns REWRITE_REGEXEC_ERR after the result message, make
ldap_back_search return -1 with no result delivered, no transport error reported
and no abandon: none of the three outcomes occurs. -/
theorem C2_no_outcome_on_rewrite_error :
    ((ldap_back_search
        (with_rewrite (failing_in RewriteContext.searchFilter RewriteResult.err))
        (world false 500 10 [] (fun _ => false)) (request (-1) (-1))).1.filter
          (fun ev => is_delivery ev || is_abandon ev) = []
      ∧ (ldap_back_search
        (with_rewrite (failing_in RewriteContext.searchFilter RewriteResult.err))
        (world false 500 10 [] (fun _ => false)) (request (-1) (-1))).2 = some (-1))
    ∧ ((ldap_back_search
        (with_rewrite (failing_in RewriteContext.matchedDn RewriteResult.err))
        (world false 500 10 [PollResult.entry (person "cn=a" "a"),
          PollResult.other 32 none (some "dc=example")] (fun _ => false))
        (request (-1) (-1))).1.filter (fun ev => is_delivery ev || is_abandon ev) = []
      ∧ (ldap_back_search
        (with_rewrite (failing_in RewriteContext.matchedDn RewriteResult.err))
        (world false 500 10 [PollResult.entry (person "cn=a" "a"),
          PollResult.other 32 none (some "dc=example")] (fun _ => false))
        (request (-1) (-1))).2 = some (-1)) := by
  exact ⟨⟨by decide, by decide⟩, ⟨by decide, by decide⟩⟩

end BackLdap
